import Mathlib

/-!
# product-master-system: `pkg/config` and `pkg/logger`

A shallow embedding of the two packages of the repository,

* `pkg/config/config.go`: the `Config` tree, `Load`, `GetEnv`, `IsDevelopment`, `IsProduction`;
* `pkg/logger/logger.go`: `NewLogger`, the pass-through write methods, `WithFields`, `Sync`;

together with the behaviour of the library calls they make (`strings`, `strconv`, `os`,
`viper` with its `mapstructure` decoder, `logrus`), each in a namespace of the library's name.

Everything the Go code reads from outside the process is an explicit argument: the outcome of
the search for the settings file and the process environment for `Load`, the file system's
answer to `os.OpenFile` for `NewLogger`.  Go pointers to mutable objects (`*logrus.Logger`,
`logrus.Fields` maps) are addresses into an explicit `Heap`.
-/

set_option autoImplicit false

/-! ## Go standard library -/

namespace strings

/-- Go `strings.ToUpper` on ASCII text (the only text `viper` applies it to here: the
prefix `PM` and the dotted key names). -/
def ToUpper (s : String) : String := String.mk (s.data.map Char.toUpper)

/-- Go `unicode.ToLower` as far as a comparison with ASCII text can tell: the ASCII capitals,
and the two non-ASCII capitals whose lower case is an ASCII letter, U+0130 (to `i`) and
U+212A (to `k`).  Every other character with a lower-case form has a non-ASCII one, so
leaving it as it is cannot change whether the result equals an ASCII word. -/
def toLowerRune (c : Char) : Char :=
  if c = Char.ofNat 0x130 then 'i'
  else if c = Char.ofNat 0x212A then 'k'
  else c.toLower

/-- Go `strings.ToLower` (see `toLowerRune`). -/
def ToLower (s : String) : String := String.mk (s.data.map toLowerRune)

/-- The replacer `strings.NewReplacer(old, new)` for one-character strings, applied to `s`. -/
def Replace (old new : Char) (s : String) : String :=
  String.mk (s.data.map fun c => if c = old then new else c)

/-- Go `strings.HasPrefix`. -/
def HasPrefix (s p : String) : Bool := p.data.isPrefixOf s.data

/-- Go `strings.Join`. -/
def Join (elems : List String) (sep : String) : String := sep.intercalate elems

/-- Pieces of `cs` between occurrences of the one-character separator `sep`, the piece being
read in `cur` (reversed). -/
def splitChars (sep : Char) : List Char → List Char → List String
  | [], cur => [String.mk cur.reverse]
  | c :: cs, cur =>
    if c = sep then String.mk cur.reverse :: splitChars sep cs []
    else splitChars sep cs (c :: cur)

/-- Go `strings.Split(s, sep)` for a one-character separator. -/
def Split (s : String) (sep : Char) : List String := splitChars sep s.data []

end strings

namespace strconv

/-- The two errors of `strconv`'s number parsers. -/
inductive NumError
  | ErrSyntax
  | ErrRange
  deriving DecidableEq, Repr

/-- Value of the byte `c` as a digit, as the loop of `ParseUint` computes it: `0`-`9`, then
letters of either case from 10 on; `none` for any other byte.  A non-ASCII character is a
run of bytes above 0x7f, none of which is a digit. -/
def digitVal (c : Char) : Option Nat :=
  if '0' ≤ c ∧ c ≤ '9' then some (c.toNat - '0'.toNat)
  else if 'a' ≤ c ∧ c ≤ 'z' then some (c.toNat - 'a'.toNat + 10)
  else if 'A' ≤ c ∧ c ≤ 'Z' then some (c.toNat - 'A'.toNat + 10)
  else none

/-- Go `strconv.lower`: the lower-case form of an ASCII letter, `c | ('x' - 'X')`. -/
def lower (c : Char) : Char := Char.ofNat (c.toNat ||| 0x20)

/-- The scan of `underscoreOK` over the number proper; `saw` is the last thing seen: `'0'` a
digit or base prefix, `'_'` an underscore, `'!'` anything else, `'^'` the start. -/
def underscoreScan (hex : Bool) : Char → List Char → Bool
  | saw, [] => saw != '_'
  | saw, c :: cs =>
    if ('0' ≤ c ∧ c ≤ '9') ∨ (hex = true ∧ c.toNat < 128 ∧ 'a' ≤ lower c ∧ lower c ≤ 'f') then
      underscoreScan hex '0' cs
    else if c = '_' then
      if saw != '0' then false else underscoreScan hex '_' cs
    else if saw = '_' then false
    else underscoreScan hex '!' cs

/-- Go `strconv.underscoreOK`: underscores only between digits, or between a base prefix
and a digit. -/
def underscoreOK (s : List Char) : Bool :=
  let s := match s with
    | '-' :: t => t
    | '+' :: t => t
    | _ => s
  match s with
  | '0' :: c :: t =>
    if c = 'b' ∨ c = 'B' ∨ c = 'o' ∨ c = 'O' ∨ c = 'x' ∨ c = 'X' then
      underscoreScan (c = 'x' ∨ c = 'X') '0' t
    else underscoreScan false '^' s
  | _ => underscoreScan false '^' s

/-- The digit loop of `ParseUint`: `n` is the value so far, `underscores` whether one was
skipped.  A digit not below the base is a syntax error, a value above `maxVal` a range
error. -/
def parseDigits (base : Nat) (base0 : Bool) (cutoff maxVal : Nat) :
    List Char → Nat → Bool → Except NumError (Nat × Bool)
  | [], n, underscores => .ok (n, underscores)
  | c :: cs, n, underscores =>
    if c = '_' ∧ base0 = true then parseDigits base base0 cutoff maxVal cs n true
    else
      match digitVal c with
      | none => .error .ErrSyntax
      | some d =>
        if d ≥ base then .error .ErrSyntax
        else if n ≥ cutoff then .error .ErrRange
        else
          let n := n * base
          let n1 := (n + d) % 2 ^ 64
          if n1 < n ∨ n1 > maxVal then .error .ErrRange
          else parseDigits base base0 cutoff maxVal cs n1 underscores

/-- The base that `ParseUint` reads off the front of `s` when called with base 0, and the
digits that follow: `0b`, `0o` and `0x` (with something behind) announce base 2, 8 and 16,
any other leading `0` base 8, anything else base 10. -/
def detectBase (s : List Char) : Nat × List Char :=
  match s with
  | '0' :: c :: t =>
    if t ≠ [] ∧ (c = 'b' ∨ c = 'B') then (2, t)
    else if t ≠ [] ∧ (c = 'o' ∨ c = 'O') then (8, t)
    else if t ≠ [] ∧ (c = 'x' ∨ c = 'X') then (16, t)
    else (8, c :: t)
  | '0' :: t => (8, t)
  | _ => (10, s)

/-- Go `strconv.ParseUint(s, base, bitSize)` for `base` 0 or 2..36 and `bitSize` 1..64. -/
def ParseUint (s : List Char) (base bitSize : Nat) : Except NumError Nat :=
  if s = [] then .error .ErrSyntax
  else
    let base0 := decide (base = 0)
    let bd := if base = 0 then detectBase s else (base, s)
    let cutoff := (2 ^ 64 - 1) / bd.1 + 1
    let maxVal := 2 ^ bitSize - 1
    match parseDigits bd.1 base0 cutoff maxVal bd.2 0 false with
    | .error e => .error e
    | .ok (n, underscores) =>
      if underscores = true ∧ underscoreOK s = false then .error .ErrSyntax
      else .ok n

/-- Go `strconv.ParseInt(s, base, bitSize)`: an optional sign, then `ParseUint`; the result
must fit a signed integer of `bitSize` bits. -/
def ParseInt (s : String) (base bitSize : Nat) : Except NumError Int :=
  match s.data with
  | [] => .error .ErrSyntax
  | c :: t =>
    let neg := decide (c = '-')
    let rest := if c = '+' ∨ c = '-' then t else c :: t
    match ParseUint rest base bitSize with
    | .error e => .error e
    | .ok un =>
      let cutoff := 2 ^ (bitSize - 1)
      if neg = false ∧ un ≥ cutoff then .error .ErrRange
      else if neg = true ∧ un > cutoff then .error .ErrRange
      else .ok (if neg then - (un : Int) else (un : Int))

/-- Go `strconv.ParseBool`. -/
def ParseBool (s : String) : Option Bool :=
  if s = "1" ∨ s = "t" ∨ s = "T" ∨ s = "TRUE" ∨ s = "true" ∨ s = "True" then some true
  else if s = "0" ∨ s = "f" ∨ s = "F" ∨ s = "FALSE" ∨ s = "false" ∨ s = "False" then some false
  else none

/-- Go `strconv.FormatInt(i, 10)`. -/
def FormatInt (i : Int) : String := toString i

end strconv

/-- Equality of two `Except` values is decidable when it is for errors and for results. -/
instance instDecidableEqExcept {ε α : Type} [DecidableEq ε] [DecidableEq α] :
    DecidableEq (Except ε α)
  | .ok a, .ok b => if h : a = b then isTrue (by rw [h]) else isFalse (fun e => h (by cases e; rfl))
  | .error a, .error b =>
    if h : a = b then isTrue (by rw [h]) else isFalse (fun e => h (by cases e; rfl))
  | .ok _, .error _ => isFalse (fun e => by cases e)
  | .error _, .ok _ => isFalse (fun e => by cases e)

/-! ## `pkg/config`: the settings tree -/

namespace config

/-- Go `AppConfig`. -/
structure AppConfig where
  Name : String := ""
  Env : String := ""
  Version : String := ""
  Debug : Bool := false
  deriving DecidableEq, Repr

/-- Go `HTTPServerConfig`. -/
structure HTTPServerConfig where
  Host : String := ""
  Port : Int := 0
  ReadTimeout : String := ""
  WriteTimeout : String := ""
  IdleTimeout : String := ""
  deriving DecidableEq, Repr

/-- Go `GRPCServerConfig`. -/
structure GRPCServerConfig where
  Host : String := ""
  Port : Int := 0
  deriving DecidableEq, Repr

/-- Go `ServerConfig`. -/
structure ServerConfig where
  HTTP : HTTPServerConfig := {}
  GRPC : GRPCServerConfig := {}
  deriving DecidableEq, Repr

/-- Go `PostgresConfig`. -/
structure PostgresConfig where
  Host : String := ""
  Port : Int := 0
  User : String := ""
  Password : String := ""
  DBName : String := ""
  SSLMode : String := ""
  MaxOpenConns : Int := 0
  MaxIdleConns : Int := 0
  ConnMaxLifetime : String := ""
  deriving DecidableEq, Repr

/-- Go `RedisConfig`. -/
structure RedisConfig where
  Host : String := ""
  Port : Int := 0
  Password : String := ""
  DB : Int := 0
  PoolSize : Int := 0
  deriving DecidableEq, Repr

/-- Go `ElasticsearchConfig`. -/
structure ElasticsearchConfig where
  URLs : List String := []
  Username : String := ""
  Password : String := ""
  Sniff : Bool := false
  deriving DecidableEq, Repr

/-- Go `DatabaseConfig`. -/
structure DatabaseConfig where
  Postgres : PostgresConfig := {}
  Redis : RedisConfig := {}
  Elasticsearch : ElasticsearchConfig := {}
  deriving DecidableEq, Repr

/-- Go `LogConfig`. -/
structure LogConfig where
  Level : String := ""
  Format : String := ""
  Output : String := ""
  deriving DecidableEq, Repr

/-- Go `Config`; every field defaults to its Go zero value, as `var config Config` gives. -/
structure Config where
  App : AppConfig := {}
  Server : ServerConfig := {}
  Database : DatabaseConfig := {}
  Log : LogConfig := {}
  deriving DecidableEq, Repr

/-- The leaf keys of the settings tree: one for each field of `Config`, named by the chain
of `mapstructure` tags that leads to it. -/
inductive Key
  | app_name | app_env | app_version | app_debug
  | server_http_host | server_http_port | server_http_read_timeout
  | server_http_write_timeout | server_http_idle_timeout
  | server_grpc_host | server_grpc_port
  | database_postgres_host | database_postgres_port | database_postgres_user
  | database_postgres_password | database_postgres_dbname | database_postgres_sslmode
  | database_postgres_max_open_conns | database_postgres_max_idle_conns
  | database_postgres_conn_max_lifetime
  | database_redis_host | database_redis_port | database_redis_password
  | database_redis_db | database_redis_pool_size
  | database_elasticsearch_urls | database_elasticsearch_username
  | database_elasticsearch_password | database_elasticsearch_sniff
  | log_level | log_format | log_output
  deriving DecidableEq, Repr

/-- The `mapstructure` tags from the root of `Config` to the field of a key. -/
def Key.path : Key → List String
  | .app_name => ["app", "name"]
  | .app_env => ["app", "env"]
  | .app_version => ["app", "version"]
  | .app_debug => ["app", "debug"]
  | .server_http_host => ["server", "http", "host"]
  | .server_http_port => ["server", "http", "port"]
  | .server_http_read_timeout => ["server", "http", "read_timeout"]
  | .server_http_write_timeout => ["server", "http", "write_timeout"]
  | .server_http_idle_timeout => ["server", "http", "idle_timeout"]
  | .server_grpc_host => ["server", "grpc", "host"]
  | .server_grpc_port => ["server", "grpc", "port"]
  | .database_postgres_host => ["database", "postgres", "host"]
  | .database_postgres_port => ["database", "postgres", "port"]
  | .database_postgres_user => ["database", "postgres", "user"]
  | .database_postgres_password => ["database", "postgres", "password"]
  | .database_postgres_dbname => ["database", "postgres", "dbname"]
  | .database_postgres_sslmode => ["database", "postgres", "sslmode"]
  | .database_postgres_max_open_conns => ["database", "postgres", "max_open_conns"]
  | .database_postgres_max_idle_conns => ["database", "postgres", "max_idle_conns"]
  | .database_postgres_conn_max_lifetime => ["database", "postgres", "conn_max_lifetime"]
  | .database_redis_host => ["database", "redis", "host"]
  | .database_redis_port => ["database", "redis", "port"]
  | .database_redis_password => ["database", "redis", "password"]
  | .database_redis_db => ["database", "redis", "db"]
  | .database_redis_pool_size => ["database", "redis", "pool_size"]
  | .database_elasticsearch_urls => ["database", "elasticsearch", "urls"]
  | .database_elasticsearch_username => ["database", "elasticsearch", "username"]
  | .database_elasticsearch_password => ["database", "elasticsearch", "password"]
  | .database_elasticsearch_sniff => ["database", "elasticsearch", "sniff"]
  | .log_level => ["log", "level"]
  | .log_format => ["log", "format"]
  | .log_output => ["log", "output"]

/-- The dotted name of a key, as `viper` spells it: `server.http.port`. -/
def Key.name (k : Key) : String := strings.Join k.path "."

/-- A scalar of a parsed YAML document, or a default given to `viper.SetDefault`.  An
integer of a document reaches the decoder as a Go `int` when it fits 64 signed bits and as
a `uint64` from 2^63 up to 2^64 - 1 (larger ones are floats, outside the settings files
considered). -/
inductive Scalar
  | str (s : String)
  | int (i : Int)
  | bool (b : Bool)
  deriving DecidableEq, Repr

/-- A value at a leaf key: a scalar or a sequence of scalars.  (Floats, nulls and maps at a
leaf are outside the settings files considered.) -/
inductive Value
  | scalar (x : Scalar)
  | list (xs : List Scalar)
  deriving DecidableEq, Repr

/-- The key space of one layer (the settings file, the defaults): the value at each leaf
key that the layer sets.  A settings file is thus a YAML document with maps where `Config`
has sections and scalars or sequences of scalars at leaves; what else it holds under keys
`Config` has no field for is dropped by `Unmarshal`. -/
abbrev Settings := Key → Option Value

/-- The process environment, as `os.LookupEnv` reads it. -/
abbrev Env := String → Option String

/-- Go errors met by `Load`.  `Errorf format err` is `fmt.Errorf(format, err)` for a format
with `%w`: an error that wraps `err`. -/
inductive Error
  | ConfigFileNotFoundError (name locations : String)
  | ConfigParseError (cause : String)
  | ReadError (cause : String)
  | DecodeError (field : String) (cause : String)
  | Errorf (format : String) (err : Error)
  deriving DecidableEq, Repr

/-- Go `errors.Unwrap`. -/
def Error.Unwrap : Error → Option Error
  | .Errorf _ err => some err
  | _ => none

end config

/-! ## `mapstructure`: decoding a value into a field (weakly typed input, as `viper` asks) -/

namespace mapstructure

open config

/-- The decoder `decodeString` on a scalar with `WeaklyTypedInput`: a string as it is, a
boolean as `"1"` or `"0"`, an integer in decimal. -/
def decodeStringScalar : Scalar → String
  | .str s => s
  | .bool b => if b then "1" else "0"
  | .int i => strconv.FormatInt i

/-- The decoder `decodeString`: a sequence is not convertible to a string. -/
def decodeString (name : String) : Value → Except Error String
  | .scalar x => .ok (decodeStringScalar x)
  | .list _ => .error (.DecodeError name "expected type string, got unconvertible type")

/-- The Go conversion `int64(x)` of an integer of type `int` or `uint64`: the value of the
low 64 bits read as a signed number, so 2^63 becomes -2^63. -/
def int64 (x : Int) : Int := (x + 2 ^ 63) % 2 ^ 64 - 2 ^ 63

/-- The decoder `decodeInt` for a field of Go type `int` (64 bits) with `WeaklyTypedInput`:
an integer through `val.SetInt(dataVal.Int())` or, for a `uint64`,
`val.SetInt(int64(dataVal.Uint()))`, a boolean as 1 or 0, a string through
`strconv.ParseInt(str, 0, 64)` with the empty string read as `"0"`. -/
def decodeInt (name : String) : Value → Except Error Int
  | .scalar (.int i) => .ok (int64 i)
  | .scalar (.bool b) => .ok (if b then 1 else 0)
  | .scalar (.str s) =>
    let str := if s = "" then "0" else s
    match strconv.ParseInt str 0 64 with
    | .ok i => .ok i
    | .error _ => .error (.DecodeError name "cannot parse as int")
  | .list _ => .error (.DecodeError name "expected type int, got unconvertible type")

/-- The decoder `decodeBool` with `WeaklyTypedInput`: a boolean as it is, an integer as
`i != 0`, a string through `strconv.ParseBool` with the empty string read as false. -/
def decodeBool (name : String) : Value → Except Error Bool
  | .scalar (.bool b) => .ok b
  | .scalar (.int i) => .ok (decide (i ≠ 0))
  | .scalar (.str s) =>
    match strconv.ParseBool s with
    | some b => .ok b
    | none =>
      if s = "" then .ok false
      else .error (.DecodeError name "cannot parse as bool")
  | .list _ => .error (.DecodeError name "expected type bool, got unconvertible type")

/-- Decoding into a field of type `[]string`.  The hook `StringToSliceHookFunc(",")` that
`viper` installs turns a string into its comma-separated pieces (none for the empty string);
`decodeSlice` turns any other single value into a slice of that one element, and decodes
each element of a sequence as a string. -/
def decodeStringSlice (_name : String) : Value → Except Error (List String)
  | .scalar (.str s) => .ok (if s = "" then [] else strings.Split s ',')
  | .scalar x => .ok [decodeStringScalar x]
  | .list xs => .ok (xs.map decodeStringScalar)

/-- A field whose key is absent from the input keeps its zero value. -/
def field {α : Type} (dec : String → Value → Except Error α) (zero : α) (k : Key)
    (input : Settings) : Except Error α :=
  match input k with
  | none => .ok zero
  | some data => dec k.name data

/-- Decoding the merged key space into a `Config`, field by field.  (The library reports
every field that fails; the embedding stops at the first, in declaration order.) -/
def Decode (input : Settings) : Except Error Config := do
  let appName ← field decodeString "" .app_name input
  let appEnv ← field decodeString "" .app_env input
  let appVersion ← field decodeString "" .app_version input
  let appDebug ← field decodeBool false .app_debug input
  let httpHost ← field decodeString "" .server_http_host input
  let httpPort ← field decodeInt 0 .server_http_port input
  let httpRead ← field decodeString "" .server_http_read_timeout input
  let httpWrite ← field decodeString "" .server_http_write_timeout input
  let httpIdle ← field decodeString "" .server_http_idle_timeout input
  let grpcHost ← field decodeString "" .server_grpc_host input
  let grpcPort ← field decodeInt 0 .server_grpc_port input
  let pgHost ← field decodeString "" .database_postgres_host input
  let pgPort ← field decodeInt 0 .database_postgres_port input
  let pgUser ← field decodeString "" .database_postgres_user input
  let pgPassword ← field decodeString "" .database_postgres_password input
  let pgDBName ← field decodeString "" .database_postgres_dbname input
  let pgSSLMode ← field decodeString "" .database_postgres_sslmode input
  let pgMaxOpen ← field decodeInt 0 .database_postgres_max_open_conns input
  let pgMaxIdle ← field decodeInt 0 .database_postgres_max_idle_conns input
  let pgLifetime ← field decodeString "" .database_postgres_conn_max_lifetime input
  let redisHost ← field decodeString "" .database_redis_host input
  let redisPort ← field decodeInt 0 .database_redis_port input
  let redisPassword ← field decodeString "" .database_redis_password input
  let redisDB ← field decodeInt 0 .database_redis_db input
  let redisPool ← field decodeInt 0 .database_redis_pool_size input
  let esURLs ← field decodeStringSlice [] .database_elasticsearch_urls input
  let esUsername ← field decodeString "" .database_elasticsearch_username input
  let esPassword ← field decodeString "" .database_elasticsearch_password input
  let esSniff ← field decodeBool false .database_elasticsearch_sniff input
  let logLevel ← field decodeString "" .log_level input
  let logFormat ← field decodeString "" .log_format input
  let logOutput ← field decodeString "" .log_output input
  return {
    App := { Name := appName, Env := appEnv, Version := appVersion, Debug := appDebug }
    Server := {
      HTTP := { Host := httpHost, Port := httpPort, ReadTimeout := httpRead,
                WriteTimeout := httpWrite, IdleTimeout := httpIdle }
      GRPC := { Host := grpcHost, Port := grpcPort } }
    Database := {
      Postgres := { Host := pgHost, Port := pgPort, User := pgUser, Password := pgPassword,
                    DBName := pgDBName, SSLMode := pgSSLMode, MaxOpenConns := pgMaxOpen,
                    MaxIdleConns := pgMaxIdle, ConnMaxLifetime := pgLifetime }
      Redis := { Host := redisHost, Port := redisPort, Password := redisPassword,
                 DB := redisDB, PoolSize := redisPool }
      Elasticsearch := { URLs := esURLs, Username := esUsername, Password := esPassword,
                         Sniff := esSniff } }
    Log := { Level := logLevel, Format := logFormat, Output := logOutput } }

end mapstructure

/-! ## `viper`: the layered key space -/

namespace viper

open config

/-- What the search for the settings file in `./configs` and `.` comes to: no `config.yaml`
in either; a file that cannot be read; a file that is not well-formed YAML; or the parsed
document, as the value it sets at each leaf key. -/
inductive ConfigFile
  | missing
  | unreadable (cause : String)
  | malformed (cause : String)
  | parsed (settings : Settings)

/-- The state of the package-level `viper` instance that `Load` touches. -/
structure Viper where
  configName : String
  configType : String
  configPaths : List String
  automaticEnvApplied : Bool
  envPrefix : String
  envKeyReplacer : Option (Char × Char)
  config : Settings
  defaults : Settings

/-- The instance as the package creates it (`viper.New()`). -/
def New : Viper :=
  { configName := "config", configType := "", configPaths := [],
    automaticEnvApplied := false, envPrefix := "", envKeyReplacer := none,
    config := fun _ => none, defaults := fun _ => none }

/-- Method `SetConfigName`. -/
def Viper.SetConfigName (v : Viper) (name : String) : Viper := { v with configName := name }

/-- Method `SetConfigType`. -/
def Viper.SetConfigType (v : Viper) (typ : String) : Viper := { v with configType := typ }

/-- Method `AddConfigPath`: a path is added once. -/
def Viper.AddConfigPath (v : Viper) (path : String) : Viper :=
  if path ∈ v.configPaths then v else { v with configPaths := v.configPaths ++ [path] }

/-- Method `AutomaticEnv`. -/
def Viper.AutomaticEnv (v : Viper) : Viper := { v with automaticEnvApplied := true }

/-- Method `SetEnvPrefix`. -/
def Viper.SetEnvPrefix (v : Viper) (p : String) : Viper := { v with envPrefix := p }

/-- Method `SetEnvKeyReplacer`, for a replacer of one character by another. -/
def Viper.SetEnvKeyReplacer (v : Viper) (old new : Char) : Viper :=
  { v with envKeyReplacer := some (old, new) }

/-- Method `SetDefault`: the lowest layer of the key space. -/
def Viper.SetDefault (v : Viper) (key : Key) (value : Scalar) : Viper :=
  { v with defaults := fun k => if k = key then some (.scalar value) else v.defaults k }

/-- Method `mergeWithEnvPrefix`: the upper-cased key behind the upper-cased prefix. -/
def Viper.mergeWithEnvPrefix (v : Viper) (key : String) : String :=
  if v.envPrefix ≠ "" then strings.ToUpper (v.envPrefix ++ "_" ++ key)
  else strings.ToUpper key

/-- Method `getEnv`: the variable named by the key after the replacer; an empty value
counts as unset (`AllowEmptyEnv` is off). -/
def Viper.getEnv (v : Viper) (env : Env) (key : String) : Option String :=
  let key := match v.envKeyReplacer with
    | some (old, new) => strings.Replace old new key
    | none => key
  match env key with
  | some val => if val ≠ "" then some val else none
  | none => none

/-- The proper non-empty initial segments of a path, shortest first. -/
def parentPaths (path : List String) : List (List String) :=
  (List.range path.length).tail.map fun i => path.take i

/-- Method `isPathShadowedInAutoEnv`: some parent of the key has an environment variable of
its own. -/
def Viper.isPathShadowedInAutoEnv (v : Viper) (env : Env) (path : List String) : Bool :=
  (parentPaths path).any fun p =>
    (v.getEnv env (v.mergeWithEnvPrefix (strings.Join p "."))).isSome

/-- Method `find` for a key of the key space, with the layers `Load` uses: the key's
environment variable, then the settings file, then the defaults.  A key none of whose
layers has a value, or that an environment variable of a parent shadows, has none. -/
def Viper.find (v : Viper) (env : Env) (k : Key) : Option Value :=
  let lower :=
    match v.config k with
    | some val => some val
    | none => v.defaults k
  if v.automaticEnvApplied then
    match v.getEnv env (v.mergeWithEnvPrefix k.name) with
    | some val => some (.scalar (.str val))
    | none => if v.isPathShadowedInAutoEnv env k.path then none else lower
  else lower

/-- Method `AllKeys`, as a membership test: the keys the settings file or the defaults set.
The environment adds none (no key is bound with `BindEnv`). -/
def Viper.isKey (v : Viper) (k : Key) : Bool :=
  (v.config k).isSome || (v.defaults k).isSome

/-- Method `AllSettings`: the value `find` gives at every key of `AllKeys`. -/
def Viper.AllSettings (v : Viper) (env : Env) : Settings :=
  fun k => if v.isKey k then v.find env k else none

/-- Method `ReadInConfig`: the error, if any, and the instance with the parsed document as
its file layer. -/
def Viper.ReadInConfig (v : Viper) (file : ConfigFile) : Option Error × Viper :=
  match file with
  | .missing =>
    (some (.ConfigFileNotFoundError v.configName ("[" ++ strings.Join v.configPaths " " ++ "]")), v)
  | .unreadable cause => (some (.ReadError cause), v)
  | .malformed cause => (some (.ConfigParseError cause), v)
  | .parsed settings => (none, { v with config := settings })

/-- Method `Unmarshal`: decode `AllSettings` into a `Config`. -/
def Viper.Unmarshal (v : Viper) (env : Env) : Except Error Config :=
  mapstructure.Decode (v.AllSettings env)

end viper

namespace config

/-- The type assertion `err.(viper.ConfigFileNotFoundError)`. -/
def Error.isConfigFileNotFoundError : Error → Bool
  | .ConfigFileNotFoundError _ _ => true
  | _ => false

/-- Go `Load`, as a function of what the search for the settings file finds and of the
process environment, on the package-level `viper` instance as it is at process start (the
one call at startup).  The line `log.Println` of the not-found branch writes a notice and
changes nothing else. -/
def Load (file : viper.ConfigFile) (env : Env) : Except Error Config :=
  let v := viper.New
  let v := v.SetConfigName "config"
  let v := v.SetConfigType "yaml"
  let v := v.AddConfigPath "./configs"
  let v := v.AddConfigPath "."
  let v := v.AutomaticEnv
  let v := v.SetEnvPrefix "PM"
  let v := v.SetEnvKeyReplacer '.' '_'
  let (err, v) := v.ReadInConfig file
  -- a `ConfigFileNotFoundError` is logged and dropped; any other error ends the call
  match err.filter (fun e => !e.isConfigFileNotFoundError) with
  | some e => .error (.Errorf "failed to read config file: %w" e)
  | none =>
    let v := v.SetDefault .app_name (.str "product-master-system")
    let v := v.SetDefault .app_env (.str "development")
    let v := v.SetDefault .server_http_host (.str "127.0.0.1")
    let v := v.SetDefault .server_http_port (.int 8080)
    match v.Unmarshal env with
    | .error e => .error (.Errorf "failed to unmarshal config: %w" e)
    | .ok config => .ok config

/-- Go `(*Config).GetEnv`. -/
def Config.GetEnv (c : Config) : String := c.App.Env

/-- Go `(*Config).IsDevelopment`. -/
def Config.IsDevelopment (c : Config) : Bool := c.App.Env == "development"

/-- Go `(*Config).IsProduction`. -/
def Config.IsProduction (c : Config) : Bool := c.App.Env == "production"

end config

/-! ## `os`, `logrus` and the world a logger lives in -/

namespace os

/-- Go `os.O_WRONLY` (its Linux value). -/
def O_WRONLY : Nat := 0x1

/-- Go `os.O_CREATE` (its Linux value). -/
def O_CREATE : Nat := 0x40

/-- Go `os.O_APPEND` (its Linux value). -/
def O_APPEND : Nat := 0x400

/-- An open file, Go `*os.File`: its descriptor and the name it was opened under. -/
structure File where
  fd : Nat
  name : String
  deriving DecidableEq, Repr

/-- Go `*fs.PathError`, the error of a failed `os.OpenFile`. -/
structure PathError where
  Op : String
  Path : String
  Err : String
  deriving DecidableEq, Repr

/-- One call of `os.OpenFile`. -/
structure OpenCall where
  name : String
  flag : Nat
  perm : Nat
  deriving DecidableEq, Repr

end os

namespace logrus

/-- Go `logrus.Level`, in the order of its constants: `PanicLevel` is 0, `TraceLevel` 6. -/
inductive Level
  | PanicLevel | FatalLevel | ErrorLevel | WarnLevel | InfoLevel | DebugLevel | TraceLevel
  deriving DecidableEq, Repr

/-- The number behind a level. -/
def Level.toNat : Level → Nat
  | .PanicLevel => 0
  | .FatalLevel => 1
  | .ErrorLevel => 2
  | .WarnLevel => 3
  | .InfoLevel => 4
  | .DebugLevel => 5
  | .TraceLevel => 6

/-- The error of `ParseLevel`: `not a valid logrus Level` with the offending string. -/
structure InvalidLevel where
  lvl : String
  deriving DecidableEq, Repr

/-- Go `logrus.ParseLevel`: a `switch` on `strings.ToLower(lvl)`. -/
def ParseLevel (lvl : String) : Except InvalidLevel Level :=
  let s := strings.ToLower lvl
  if s = "panic" then .ok .PanicLevel
  else if s = "fatal" then .ok .FatalLevel
  else if s = "error" then .ok .ErrorLevel
  else if s = "warn" ∨ s = "warning" then .ok .WarnLevel
  else if s = "info" then .ok .InfoLevel
  else if s = "debug" then .ok .DebugLevel
  else if s = "trace" then .ok .TraceLevel
  else .error ⟨lvl⟩

/-- The formatters `NewLogger` chooses from: `&logrus.JSONFormatter{}`, and a
`&logrus.TextFormatter{...}` with the two fields the package sets (`new(TextFormatter)`,
the formatter of a fresh logger, has neither). -/
inductive Formatter
  | JSONFormatter
  | TextFormatter (FullTimestamp : Bool) (TimestampFormat : String)
  deriving DecidableEq, Repr

/-- Where a logger writes, Go `io.Writer`: a standard stream or an open file. -/
inductive Writer
  | Stdout
  | Stderr
  | File (file : os.File)
  deriving DecidableEq, Repr

/-- Go `logrus.Logger`, the fields the package sets. -/
structure Logger where
  Out : Writer
  Formatter : Formatter
  Level : Level
  deriving DecidableEq, Repr

/-- A value stored under a key of `logrus.Fields`, Go `interface{}`: what matters to
`WithFields` is whether its dynamic type is a function or a pointer to one. -/
inductive FieldValue
  | nil
  | str (s : String)
  | int (i : Int)
  | bool (b : Bool)
  | func (addr : Nat)
  | funcPtr (addr : Nat)
  deriving DecidableEq, Repr

/-- The contents of a Go map `logrus.Fields`, in the order a `range` over it visits them
(any order can occur); the keys of a map are distinct. -/
abbrev Fields := List (String × FieldValue)

/-- The text of the field `err` of an entry, kept as the pieces it is put together from and
not as characters: `empty` is the empty string, `note k` is `fmt.Sprintf("can not add field
%q", k)`, and `after e k` is `e + ", " + fmt.Sprintf("can not add field %q", k)`.  Only
`empty` stands for the empty string. -/
inductive ErrText
  | empty
  | note (key : String)
  | after (before : ErrText) (key : String)
  deriving DecidableEq, Repr

/-- Go `logrus.Entry`: a pointer to its logger, its map of fields, and the note `err` about
fields that could not be added. -/
structure Entry where
  Logger : Nat
  Data : Nat
  err : ErrText
  deriving DecidableEq, Repr

/-- What a write hands to the formatter and the sink: the copy of the entry with its level
and message. -/
structure Emitted where
  Out : Writer
  Formatter : Formatter
  Level : Level
  Message : String
  Data : Fields
  err : ErrText
  deriving DecidableEq, Repr

end logrus

/-- The world of a logger: the file system's answer to `os.OpenFile`, the calls made to it,
the heap of loggers and of field maps (a pointer is an index), what has been written, and
the exit code once `Fatal` has ended the process. -/
structure World where
  fs : String → Nat → Nat → Except os.PathError os.File
  opened : List os.OpenCall
  loggers : List logrus.Logger
  maps : List logrus.Fields
  written : List logrus.Emitted
  exited : Option Nat

/-- A world with nothing in it yet, over a file system. -/
def World.init (fs : String → Nat → Nat → Except os.PathError os.File) : World :=
  { fs := fs, opened := [], loggers := [], maps := [], written := [], exited := none }

namespace os

/-- Go `os.OpenFile(name, flag, perm)`. -/
def OpenFile (w : World) (name : String) (flag perm : Nat) :
    Except PathError File × World :=
  (w.fs name flag perm, { w with opened := w.opened ++ [⟨name, flag, perm⟩] })

end os

namespace logrus

/-- Go `logrus.New()`: a fresh logger, to standard error, text format, info level. -/
def New (w : World) : Nat × World :=
  (w.loggers.length,
    { w with loggers := w.loggers ++ [⟨.Stderr, .TextFormatter false "", .InfoLevel⟩] })

/-- A store through a `*Logger`. -/
def updateLogger (w : World) (log : Nat) (f : Logger → Logger) : World :=
  match w.loggers.get? log with
  | some l => { w with loggers := w.loggers.set log (f l) }
  | none => w

/-- Method `(*Logger).SetLevel`. -/
def SetLevel (w : World) (log : Nat) (level : Level) : World :=
  updateLogger w log fun l => { l with Level := level }

/-- Method `(*Logger).SetFormatter`. -/
def SetFormatter (w : World) (log : Nat) (formatter : Formatter) : World :=
  updateLogger w log fun l => { l with Formatter := formatter }

/-- Method `(*Logger).SetOutput`. -/
def SetOutput (w : World) (log : Nat) (output : Writer) : World :=
  updateLogger w log fun l => { l with Out := output }

/-- Go `make(Fields, n)`: a fresh empty map. -/
def makeFields (w : World) : Nat × World :=
  (w.maps.length, { w with maps := w.maps ++ [[]] })

/-- The assignment `m[k] = v` on the contents of a map. -/
def assign : Fields → String → FieldValue → Fields
  | [], k, v => [(k, v)]
  | (k', v') :: m, k, v => if k' = k then (k, v) :: m else (k', v') :: assign m k v

/-- The index expression `m[k]` on the contents of a map: the value under `k`, if any. -/
def lookup : Fields → String → Option FieldValue
  | [], _ => none
  | (k', v') :: m, k => if k' = k then some v' else lookup m k

/-- The assignment `data[k] = v` through the map pointer `data`. -/
def mapAssign (w : World) (data : Nat) (k : String) (v : FieldValue) : World :=
  { w with maps := w.maps.set data (assign (w.maps.getD data []) k v) }

/-- The contents of the map behind a pointer. -/
def readFields (w : World) (data : Nat) : Fields := w.maps.getD data []

/-- Go `logrus.NewEntry(logger)`. -/
def NewEntry (w : World) (logger : Nat) : Entry × World :=
  let (data, w) := makeFields w
  ({ Logger := logger, Data := data, err := .empty }, w)

/-- The test of `Entry.WithFields` on a value: its type is a function or a pointer to a
function. -/
def isErrField : FieldValue → Bool
  | .func _ => true
  | .funcPtr _ => true
  | _ => false

/-- One round of the second loop of `Entry.WithFields`, over the pair `(k, v)` of the
argument: a function-typed value is noted in `fieldErr` and left out, any other is stored.
The note is `tmp` alone when `fieldErr` is still empty, and otherwise `entry.err + ", " +
tmp`, which restarts from the text of the parent entry. -/
def withFieldsStep (data : Nat) (entryErr : ErrText) (acc : ErrText × World)
    (kv : String × FieldValue) : ErrText × World :=
  if isErrField kv.2 then
    (if acc.1 ≠ .empty then .after entryErr kv.1 else .note kv.1, acc.2)
  else (acc.1, mapAssign acc.2 data kv.1 kv.2)

/-- Method `(*Entry).WithFields`: a new entry on the same logger whose map is a fresh one,
filled with the parent's pairs and then with those of `fields`. -/
def Entry.WithFields (w : World) (entry : Entry) (fields : Fields) : Entry × World :=
  let (data, w) := makeFields w
  let w := (readFields w entry.Data).foldl (fun w kv => mapAssign w data kv.1 kv.2) w
  let (fieldErr, w) := fields.foldl (withFieldsStep data entry.err) (entry.err, w)
  ({ Logger := entry.Logger, Data := data, err := fieldErr }, w)

/-- Method `(*Logger).IsLevelEnabled`. -/
def IsLevelEnabled (l : Logger) (level : Level) : Bool := decide (l.Level.toNat ≥ level.toNat)

/-- Method `(*Entry).Log` with the message `fmt.Sprint(args...)` already rendered: if the
level is enabled, a copy of the entry with level and message goes through the logger's
formatter to its sink.  (Hooks, the time stamp and the panic of `PanicLevel` are left
out.) -/
def Entry.Log (w : World) (entry : Entry) (level : Level) (msg : String) : World :=
  match w.loggers.get? entry.Logger with
  | none => w
  | some l =>
    if IsLevelEnabled l level then
      { w with written := w.written ++
          [{ Out := l.Out, Formatter := l.Formatter, Level := level, Message := msg,
             Data := readFields w entry.Data, err := entry.err }] }
    else w

/-- Method `(*Entry).Fatal`: log at `FatalLevel`, then `Logger.Exit(1)`. -/
def Entry.Fatal (w : World) (entry : Entry) (msg : String) : World :=
  let w := Entry.Log w entry .FatalLevel msg
  { w with exited := some 1 }

end logrus

/-! ## `pkg/logger` -/

namespace logger

open logrus

/-- Go `logrusLogger`, the implementation of the interface `Logger`. -/
structure logrusLogger where
  entry : Entry
  deriving DecidableEq, Repr

/-- Go `NewLogger`: the handle or the error, and the world after the call. -/
def NewLogger (w : World) (level format output : String) :
    Except os.PathError logrusLogger × World :=
  let (log, w) := logrus.New w
  -- level
  let lvl :=
    match ParseLevel level with
    | .ok lvl => lvl
    | .error _ => Level.InfoLevel
  let w := SetLevel w log lvl
  -- format
  let w :=
    if format = "json" then SetFormatter w log .JSONFormatter
    else SetFormatter w log (.TextFormatter true "2006-01-02 15:04:05")
  -- output
  let (out, w) : Except os.PathError Writer × World :=
    if output ≠ "stdout" ∧ output ≠ "" then
      match os.OpenFile w output (os.O_CREATE ||| os.O_WRONLY ||| os.O_APPEND) 0o666 with
      | (.error err, w) => (.error err, w)
      | (.ok file, w) => (.ok (.File file), w)
    else (.ok .Stdout, w)
  match out with
  | .error err => (.error err, w)
  | .ok out =>
    let w := SetOutput w log out
    let (entry, w) := NewEntry w log
    (.ok { entry := entry }, w)

/-- Go `(*logrusLogger).Debug`, with the message `fmt.Sprint(args...)`. -/
def logrusLogger.Debug (w : World) (l : logrusLogger) (msg : String) : World :=
  l.entry.Log w .DebugLevel msg

/-- Go `(*logrusLogger).Info`, with the message `fmt.Sprint(args...)`. -/
def logrusLogger.Info (w : World) (l : logrusLogger) (msg : String) : World :=
  l.entry.Log w .InfoLevel msg

/-- Go `(*logrusLogger).Warn`, with the message `fmt.Sprint(args...)`. -/
def logrusLogger.Warn (w : World) (l : logrusLogger) (msg : String) : World :=
  l.entry.Log w .WarnLevel msg

/-- Go `(*logrusLogger).Error`, with the message `fmt.Sprint(args...)`. -/
def logrusLogger.Error (w : World) (l : logrusLogger) (msg : String) : World :=
  l.entry.Log w .ErrorLevel msg

/-- Go `(*logrusLogger).Fatal`, with the message `fmt.Sprint(args...)`. -/
def logrusLogger.Fatal (w : World) (l : logrusLogger) (msg : String) : World :=
  l.entry.Fatal w msg

/-- Go `(*logrusLogger).WithFields`. -/
def logrusLogger.WithFields (w : World) (l : logrusLogger) (fields : Fields) :
    logrusLogger × World :=
  let (entry, w) := l.entry.WithFields w fields
  ({ entry := entry }, w)

/-- Go `(*logrusLogger).Sync`: nothing to do, no error. -/
def logrusLogger.Sync (_l : logrusLogger) : Option os.PathError := none

/-- The logger behind a handle. -/
def logrusLogger.logger (w : World) (l : logrusLogger) : Option Logger :=
  w.loggers.get? l.entry.Logger

/-- The field context of a handle: the contents of its entry's map. -/
def logrusLogger.fields (w : World) (l : logrusLogger) : Fields :=
  readFields w l.entry.Data

end logger

/-! ## Definitions used to state and prove the claims -/

namespace config

open viper mapstructure

/-- The instance after the calls `Load` makes before it reads the settings file. -/
def configured : Viper :=
  ((((((viper.New.SetConfigName "config").SetConfigType "yaml").AddConfigPath
    "./configs").AddConfigPath ".").AutomaticEnv).SetEnvPrefix "PM").SetEnvKeyReplacer '.' '_'

/-- The instance at the moment `Load` unmarshals, for a file layer `settings`. -/
def loaded (settings : Settings) : Viper :=
  ((({ configured with config := settings }.SetDefault .app_name
    (.str "product-master-system")).SetDefault .app_env (.str "development")).SetDefault
    .server_http_host (.str "127.0.0.1")).SetDefault .server_http_port (.int 8080)

/-- The outcome of `Load` once the file layer is settled. -/
def finish (settings : Settings) (env : Env) : Except Error Config :=
  match (loaded settings).Unmarshal env with
  | .error e => .error (.Errorf "failed to unmarshal config: %w" e)
  | .ok config => .ok config

/-- The name of the environment variable `viper` reads for a key string. -/
def envVar (key : String) : String :=
  strings.Replace '.' '_' (strings.ToUpper ("PM" ++ "_" ++ key))

/-- A variable of the environment that is set and not empty. -/
def Env.get (env : Env) (name : String) : Option String :=
  (env name).filter fun val => val ≠ ""

/-- The default `Load` gives a key. -/
def defaultOf : Key → Option Value
  | .app_name => some (.scalar (.str "product-master-system"))
  | .app_env => some (.scalar (.str "development"))
  | .server_http_host => some (.scalar (.str "127.0.0.1"))
  | .server_http_port => some (.scalar (.int 8080))
  | _ => none

/-- Some parent of the key has a variable of its own in the environment. -/
def shadowed (env : Env) (k : Key) : Bool :=
  (parentPaths k.path).any fun p => (Env.get env (envVar (strings.Join p "."))).isSome

end config

namespace logger

open logrus

/-- The flags `NewLogger` opens a log file with. -/
def openFlags : Nat := os.O_CREATE ||| os.O_WRONLY ||| os.O_APPEND

/-- The logger a call of `NewLogger` in world `w` creates, in the world `w'` after the
call: it sits at the first free address of `w`. -/
def created (w w' : World) : Option Logger := w'.loggers.get? w.loggers.length

/-- A file system in which every `os.OpenFile` fails. -/
def noFiles : String → Nat → Nat → Except os.PathError os.File :=
  fun name _ _ => .error ⟨"open", name, "permission denied"⟩

/-- A file system in which every `os.OpenFile` succeeds, on descriptor 3. -/
def anyFile : String → Nat → Nat → Except os.PathError os.File :=
  fun name _ _ => .ok ⟨3, name⟩

/-- The level `NewLogger` sets for a level string. -/
def levelFor (level : String) : Level :=
  match ParseLevel level with
  | .ok lvl => lvl
  | .error _ => .InfoLevel

/-- The formatter `NewLogger` sets for a format string. -/
def formatterFor (format : String) : Formatter :=
  if format = "json" then .JSONFormatter else .TextFormatter true "2006-01-02 15:04:05"

/-- The pairs of `kvs` assigned one after the other to the contents `m`. -/
def assignAll (m : Fields) (kvs : Fields) : Fields :=
  kvs.foldl (fun m kv => assign m kv.1 kv.2) m

/-- The pairs of an argument of `WithFields` that are stored. -/
def accepted (fields : Fields) : Fields := fields.filter fun kv => !isErrField kv.2

/-- A derivation of a handle from the one `NewLogger` returns in an empty world, with one
plain field and one function-typed field. -/
def derived : logrusLogger × World :=
  logrusLogger.WithFields (NewLogger (World.init noFiles) "info" "json" "stdout").2
    ⟨⟨0, 0, .empty⟩⟩ [("request_id", .str "r-1"), ("callback", .func 1)]

/-- A field map that overrides `request_id`, adds `user` and holds a function. -/
def manyFields : Fields :=
  [("request_id", .str "r-2"), ("user", .int 7), ("callback", .func 1)]

end logger

namespace strconv

/-- The value of a decimal digit character. -/
def digitOf (c : Char) : Nat := c.toNat - 48

/-- The value of decimal digits read most significant first, from `acc`. -/
def decimalValue : Nat → List Char → Nat
  | acc, [] => acc
  | acc, c :: cs => decimalValue (acc * 10 + digitOf c) cs

/-- A decimal digit character. -/
def isDecimal (c : Char) : Bool := decide ('0' ≤ c ∧ c ≤ '9')

end strconv

/-! ## `Load`: the key space it unmarshals -/

namespace config

open viper mapstructure

theorem Load_missing (env : Env) : Load .missing env = finish (fun _ => none) env := rfl

theorem Load_parsed (s : Settings) (env : Env) : Load (.parsed s) env = finish s env := rfl

theorem getEnv_loaded (s : Settings) (env : Env) (key : String) :
    (loaded s).getEnv env ((loaded s).mergeWithEnvPrefix key) = Env.get env (envVar key) := by
  have h1 : (loaded s).mergeWithEnvPrefix key = strings.ToUpper ("PM" ++ "_" ++ key) := by
    simp [Viper.mergeWithEnvPrefix, loaded, configured, Viper.SetDefault, Viper.SetEnvKeyReplacer,
      Viper.SetEnvPrefix, Viper.AutomaticEnv, Viper.AddConfigPath, Viper.SetConfigType,
      Viper.SetConfigName, viper.New]
  rw [h1]
  simp only [Viper.getEnv, loaded, configured, Viper.SetDefault, Viper.SetEnvKeyReplacer, envVar,
    Env.get]
  cases h : env (strings.Replace '.' '_' (strings.ToUpper ("PM" ++ "_" ++ key))) with
  | none => simp [Option.filter]
  | some val => by_cases hv : val = "" <;> simp [Option.filter, hv]

theorem envVar_hasPrefix (key : String) : strings.HasPrefix (envVar key) "PM_" = true := by
  simp [strings.HasPrefix, envVar, strings.Replace, strings.ToUpper, List.isPrefixOf]

theorem find_loaded (s : Settings) (env : Env) (k : Key) :
    (loaded s).find env k =
      match Env.get env (envVar k.name) with
      | some val => some (.scalar (.str val))
      | none =>
        if (parentPaths k.path).any (fun p => (Env.get env (envVar (strings.Join p "."))).isSome)
        then none
        else
          match s k with
          | some val => some val
          | none => (loaded s).defaults k := by
  have ha : (loaded s).automaticEnvApplied = true := rfl
  have hc : (loaded s).config = s := rfl
  simp only [Viper.find, ha, hc, if_true, Viper.isPathShadowedInAutoEnv, getEnv_loaded]

theorem defaults_loaded (s : Settings) (k : Key) : (loaded s).defaults k = defaultOf k := by
  cases k <;> rfl

theorem isKey_loaded (s : Settings) (k : Key) :
    (loaded s).isKey k = ((s k).isSome || (defaultOf k).isSome) := by
  have hc : (loaded s).config = s := rfl
  simp only [Viper.isKey, hc, defaults_loaded]

theorem AllSettings_loaded (s : Settings) (env : Env) (k : Key) :
    (loaded s).AllSettings env k =
      if (s k).isSome || (defaultOf k).isSome then
        match Env.get env (envVar k.name) with
        | some val => some (.scalar (.str val))
        | none =>
          if shadowed env k then none
          else
            match s k with
            | some val => some val
            | none => defaultOf k
      else none := by
  simp only [Viper.AllSettings, isKey_loaded, find_loaded, defaults_loaded, shadowed]

theorem port_of_env (s : Settings) (env : Env) (sv : String)
    (h : env "PM_SERVER_HTTP_PORT" = some sv) (hne : sv ≠ "") :
    (loaded s).AllSettings env .server_http_port = some (.scalar (.str sv)) := by
  have hn : envVar Key.server_http_port.name = "PM_SERVER_HTTP_PORT" := by decide
  simp [AllSettings_loaded, defaultOf, hn, h, Option.filter, hne, Env.get]

theorem ParseInt_empty (base bitSize : Nat) :
    strconv.ParseInt "" base bitSize = .error .ErrSyntax := rfl

theorem ne_empty_of_parse (sv : String) (p : Int) (h : strconv.ParseInt sv 0 64 = .ok p) :
    sv ≠ "" := by
  intro e; subst e; rw [ParseInt_empty] at h; cases h

theorem decodeInt_of_parse (name sv : String) (p : Int) (h : strconv.ParseInt sv 0 64 = .ok p) :
    decodeInt name (.scalar (.str sv)) = .ok p := by
  simp [decodeInt, ne_empty_of_parse sv p h, h]

theorem Decode_fields (input : Settings) (cfg : Config) (h : Decode input = .ok cfg) :
    field decodeString "" .app_name input = .ok cfg.App.Name ∧
    field decodeString "" .app_env input = .ok cfg.App.Env ∧
    field decodeString "" .server_http_host input = .ok cfg.Server.HTTP.Host ∧
    field decodeInt 0 .server_http_port input = .ok cfg.Server.HTTP.Port ∧
    field decodeString "" .server_grpc_host input = .ok cfg.Server.GRPC.Host ∧
    field decodeInt 0 .server_grpc_port input = .ok cfg.Server.GRPC.Port := by
  unfold Decode at h
  simp only [bind, Except.bind, pure, Except.pure] at h
  repeat' split at h
  all_goals first | (cases h; done) | skip
  all_goals (cases h; simp_all)

theorem finish_ok (s : Settings) (env : Env) (cfg : Config) (h : finish s env = .ok cfg) :
    Decode ((loaded s).AllSettings env) = .ok cfg := by
  unfold finish Viper.Unmarshal at h
  split at h
  · cases h
  · rename_i c hc; cases h; exact hc

theorem port_from_env_any (s : Settings) (env : Env) (sv : String) (p : Int) (cfg : Config)
    (h : env "PM_SERVER_HTTP_PORT" = some sv) (hp : strconv.ParseInt sv 0 64 = .ok p)
    (hl : finish s env = .ok cfg) : cfg.Server.HTTP.Port = p := by
  have hne := ne_empty_of_parse sv p hp
  have hd := (Decode_fields _ _ (finish_ok _ _ _ hl)).2.2.2.1
  simp only [field, port_of_env s env sv h hne, decodeInt_of_parse _ _ _ hp] at hd
  cases hd; rfl

theorem field_absent {α : Type} (dec : String → Value → Except Error α) (zero : α)
    (s : Settings) (env : Env) (k : Key) (hs : s k = none) (hd : defaultOf k = none) :
    field dec zero k ((loaded s).AllSettings env) = .ok zero := by
  simp [field, AllSettings_loaded, hs, hd]

theorem field_string_default (s : Settings) (env : Env) (k : Key) (hs : s k = none)
    (hk : k = .app_name ∨ k = .app_env ∨ k = .server_http_host) :
    ∃ v, field decodeString "" k ((loaded s).AllSettings env) = .ok v := by
  simp only [field, AllSettings_loaded, hs]
  rcases hk with rfl | rfl | rfl <;> simp only [defaultOf] <;>
    (cases Env.get env _ <;> cases shadowed env _ <;> simp [decodeString])

theorem finish_port_only (q : Option Value) (env : Env) (sv : String) (p : Int)
    (h : env "PM_SERVER_HTTP_PORT" = some sv) (hp : strconv.ParseInt sv 0 64 = .ok p) :
    ∃ cfg, finish (fun k => if k = .server_http_port then q else none) env = .ok cfg := by
  have hne := ne_empty_of_parse sv p hp
  have hport := port_of_env (fun k => if k = .server_http_port then q else none) env sv h hne
  have hdec := decodeInt_of_parse Key.server_http_port.name sv p hp
  obtain ⟨v1, h1⟩ := field_string_default (fun k => if k = .server_http_port then q else none) env
    .app_name (by simp) (by simp)
  obtain ⟨v2, h2⟩ := field_string_default (fun k => if k = .server_http_port then q else none) env
    .app_env (by simp) (by simp)
  obtain ⟨v3, h3⟩ := field_string_default (fun k => if k = .server_http_port then q else none) env
    .server_http_host (by simp) (by simp)
  have h4 : field decodeInt 0 .server_http_port
      ((loaded (fun k => if k = .server_http_port then q else none)).AllSettings env) = .ok p := by
    simp only [field, hport, hdec]
  simp only [finish, Viper.Unmarshal, Decode, h1, h2, h3, h4, field_absent, defaultOf,
    ite_false, if_neg, reduceCtorEq]
  exact ⟨_, rfl⟩

theorem AllSettings_congr (s : Settings) (env env' : Env)
    (h : ∀ key, Env.get env (envVar key) = Env.get env' (envVar key)) :
    (loaded s).AllSettings env = (loaded s).AllSettings env' := by
  funext k
  simp only [AllSettings_loaded, shadowed, h]

theorem finish_congr (s : Settings) (env env' : Env)
    (h : ∀ key, Env.get env (envVar key) = Env.get env' (envVar key)) :
    finish s env = finish s env' := by
  simp only [finish, Viper.Unmarshal, AllSettings_congr s env env' h]

end config

/-! ## `NewLogger` and `WithFields`: what they leave in the world -/

namespace logger

open logrus

theorem get?_append_length {α : Type} (l : List α) (x : α) :
    (l ++ [x]).get? l.length = some x := by
  induction l with
  | nil => rfl
  | cons a l ih => simp [ih]

theorem set_append_length {α : Type} (l : List α) (x y : α) :
    (l ++ [x]).set l.length y = l ++ [y] := by
  induction l with
  | nil => rfl
  | cons a l ih => simp [List.set, ih]

theorem updateLogger_fresh (fs : String → Nat → Nat → Except os.PathError os.File)
    (opened : List os.OpenCall) (ls : List Logger) (maps : List Fields)
    (written : List Emitted) (exited : Option Nat) (x : Logger) (f : Logger → Logger) :
    updateLogger ⟨fs, opened, ls ++ [x], maps, written, exited⟩ ls.length f =
      ⟨fs, opened, ls ++ [f x], maps, written, exited⟩ := by
  simp [updateLogger, get?_append_length, set_append_length]

theorem NewLogger_stdout (w : World) (level format output : String)
    (h : output = "stdout" ∨ output = "") :
    NewLogger w level format output =
      (.ok ⟨⟨w.loggers.length, w.maps.length, .empty⟩⟩,
        { w with
          loggers := w.loggers ++ [⟨.Stdout, formatterFor format, levelFor level⟩]
          maps := w.maps ++ [[]] }) := by
  have ho : ¬ (output ≠ "stdout" ∧ output ≠ "") := by
    rcases h with h | h <;> simp [h]
  unfold NewLogger
  by_cases hf : format = "json" <;>
    simp only [logrus.New, SetLevel, SetFormatter, SetOutput, updateLogger_fresh, ho, hf,
      if_false, if_true, NewEntry, makeFields, levelFor, formatterFor]

theorem NewLogger_file (w : World) (level format output : String)
    (h : ¬ (output = "stdout" ∨ output = "")) :
    NewLogger w level format output =
      match w.fs output openFlags 0o666 with
      | .error err =>
        (.error err,
          { w with
            loggers := w.loggers ++ [⟨.Stderr, formatterFor format, levelFor level⟩]
            opened := w.opened ++ [⟨output, openFlags, 0o666⟩] })
      | .ok file =>
        (.ok ⟨⟨w.loggers.length, w.maps.length, .empty⟩⟩,
          { w with
            loggers := w.loggers ++ [⟨.File file, formatterFor format, levelFor level⟩]
            opened := w.opened ++ [⟨output, openFlags, 0o666⟩]
            maps := w.maps ++ [[]] }) := by
  have ho : output ≠ "stdout" ∧ output ≠ "" := by
    constructor <;> intro e <;> exact h (by simp [e])
  unfold NewLogger
  by_cases hf : format = "json" <;>
    simp only [logrus.New, SetLevel, SetFormatter, SetOutput, updateLogger_fresh, ho, hf,
      if_false, if_true, NewEntry, makeFields, levelFor, formatterFor, os.OpenFile, openFlags,
      and_self, ne_eq, not_false_eq_true] <;>
    cases hfs : w.fs output (os.O_CREATE ||| os.O_WRONLY ||| os.O_APPEND) 0o666 <;>
    simp only [updateLogger_fresh]

theorem lookup_assign (m : Fields) (k : String) (v : FieldValue) (k' : String) :
    lookup (assign m k v) k' = if k = k' then some v else lookup m k' := by
  induction m with
  | nil => simp [assign, lookup]
  | cons p m ih =>
    obtain ⟨a, b⟩ := p
    by_cases h : a = k
    · subst h
      by_cases h' : a = k' <;> simp [assign, lookup, h']
    · by_cases h' : a = k'
      · subst h'
        have : ¬ k = a := fun e => h e.symm
        simp [assign, h, lookup, this]
      · simp [assign, h, lookup, h', ih]

theorem lookup_assignAll_of_not_mem (kvs m : Fields) (k : String)
    (h : k ∉ kvs.map Prod.fst) : lookup (assignAll m kvs) k = lookup m k := by
  induction kvs generalizing m with
  | nil => rfl
  | cons p kvs ih =>
    simp only [List.map_cons, List.mem_cons, not_or] at h
    have h1 : ¬ p.1 = k := fun e => h.1 e.symm
    show lookup (assignAll (assign m p.1 p.2) kvs) k = lookup m k
    rw [ih _ h.2, lookup_assign, if_neg h1]

theorem lookup_assignAll_of_mem (kvs m : Fields) (k : String) (v : FieldValue)
    (hn : (kvs.map Prod.fst).Nodup) (h : (k, v) ∈ kvs) :
    lookup (assignAll m kvs) k = some v := by
  induction kvs generalizing m with
  | nil => cases h
  | cons p kvs ih =>
    simp only [List.map_cons, List.nodup_cons] at hn
    show lookup (assignAll (assign m p.1 p.2) kvs) k = some v
    rcases List.mem_cons.mp h with e | e
    · subst e
      rw [lookup_assignAll_of_not_mem _ _ _ hn.1, lookup_assign, if_pos rfl]
    · exact ih _ hn.2 e

theorem lookup_of_mem (m : Fields) (k : String) (v : FieldValue)
    (hn : (m.map Prod.fst).Nodup) (h : (k, v) ∈ m) : lookup m k = some v := by
  induction m with
  | nil => cases h
  | cons p m ih =>
    simp only [List.map_cons, List.nodup_cons] at hn
    rcases List.mem_cons.mp h with e | e
    · subst e
      simp [lookup]
    · have hne : ¬ p.1 = k := by
        intro e'
        apply hn.1
        rw [e']
        exact List.mem_map_of_mem Prod.fst e
      obtain ⟨a, b⟩ := p
      simp only [lookup, if_neg hne]
      exact ih hn.2 e

theorem lookup_of_not_mem (m : Fields) (k : String) (h : k ∉ m.map Prod.fst) :
    lookup m k = none := by
  induction m with
  | nil => rfl
  | cons p m ih =>
    simp only [List.map_cons, List.mem_cons, not_or] at h
    obtain ⟨a, b⟩ := p
    have hne : ¬ a = k := fun e => h.1 e.symm
    simp only [lookup, if_neg hne]
    exact ih h.2

theorem lookup_copy (m : Fields) (k : String) (hn : (m.map Prod.fst).Nodup) :
    lookup (assignAll [] m) k = lookup m k := by
  by_cases h : k ∈ m.map Prod.fst
  · obtain ⟨p, hp, e⟩ := List.mem_map.mp h
    obtain ⟨a, b⟩ := p
    simp only at e
    subst e
    rw [lookup_assignAll_of_mem _ _ _ _ hn hp, lookup_of_mem _ _ _ hn hp]
  · rw [lookup_assignAll_of_not_mem _ _ _ h, lookup_of_not_mem _ _ h]
    rfl

theorem set_getD_self {α : Type} (l : List α) (n : Nat) (d : α) (h : n < l.length) :
    l.set n (l.getD n d) = l := by
  induction l generalizing n with
  | nil => cases h
  | cons a l ih =>
    cases n with
    | zero => rfl
    | succ n =>
      simp only [List.set, List.getD_cons_succ]
      rw [ih n (by simpa using h)]

theorem getD_set_self {α : Type} (l : List α) (n : Nat) (x d : α) (h : n < l.length) :
    (l.set n x).getD n d = x := by
  induction l generalizing n with
  | nil => cases h
  | cons a l ih =>
    cases n with
    | zero => rfl
    | succ n =>
      simp only [List.set, List.getD_cons_succ]
      exact ih n (by simpa using h)

theorem set_set_self {α : Type} (l : List α) (n : Nat) (x y : α) :
    (l.set n x).set n y = l.set n y := by
  induction l generalizing n with
  | nil => rfl
  | cons a l ih =>
    cases n with
    | zero => rfl
    | succ n => simp only [List.set, ih]

theorem getD_append_length {α : Type} (l : List α) (x d : α) :
    (l ++ [x]).getD l.length d = x := by
  induction l with
  | nil => rfl
  | cons a l ih => simp [ih]

theorem getD_append_of_lt {α : Type} (l : List α) (x d : α) (n : Nat) (h : n < l.length) :
    (l ++ [x]).getD n d = l.getD n d := by
  induction l generalizing n with
  | nil => cases h
  | cons a l ih =>
    cases n with
    | zero => rfl
    | succ n =>
      simp only [List.cons_append, List.getD_cons_succ]
      exact ih n (by simpa using h)

theorem foldl_mapAssign (kvs : Fields) (w : World) (n : Nat) (h : n < w.maps.length) :
    kvs.foldl (fun w kv => mapAssign w n kv.1 kv.2) w =
      { w with maps := w.maps.set n (assignAll (w.maps.getD n []) kvs) } := by
  induction kvs generalizing w with
  | nil =>
    show w = _
    simp only [assignAll, List.foldl_nil]
    rw [set_getD_self _ _ _ h]
  | cons p kvs ih =>
    simp only [List.foldl_cons]
    rw [ih (mapAssign w n p.1 p.2) (by simpa [mapAssign] using h)]
    simp only [mapAssign, getD_set_self _ _ _ _ h, set_set_self]
    rfl

theorem foldl_withFieldsStep (kvs : Fields) (w : World) (n : Nat) (e0 e : ErrText)
    (h : n < w.maps.length) :
    (kvs.foldl (withFieldsStep n e0) (e, w)).2 =
      { w with maps := w.maps.set n (assignAll (w.maps.getD n []) (accepted kvs)) } := by
  induction kvs generalizing w e with
  | nil =>
    show w = _
    simp only [assignAll, accepted, List.filter_nil, List.foldl_nil]
    rw [set_getD_self _ _ _ h]
  | cons p kvs ih =>
    simp only [List.foldl_cons]
    by_cases hp : isErrField p.2 = true
    · simp only [withFieldsStep, hp, if_true]
      rw [ih _ _ h]
      simp [accepted, List.filter_cons, hp]
    · have hp' : isErrField p.2 = false := by simpa using hp
      simp only [withFieldsStep, hp', Bool.false_eq_true, if_false]
      rw [ih (mapAssign w n p.1 p.2) _ (by simpa [mapAssign] using h)]
      simp only [mapAssign, getD_set_self _ _ _ _ h, set_set_self]
      simp [accepted, List.filter_cons, hp, assignAll]

theorem WithFields_world (w : World) (l : logrusLogger) (fs : Fields)
    (hl : l.entry.Data < w.maps.length) :
    (l.WithFields w fs).2 =
      { w with maps := w.maps ++ [assignAll (assignAll [] (l.fields w)) (accepted fs)] } ∧
    (l.WithFields w fs).1.entry.Logger = l.entry.Logger ∧
    (l.WithFields w fs).1.entry.Data = w.maps.length := by
  have h0 : w.maps.length < (w.maps ++ [([] : Fields)]).length := by simp
  have hr : readFields { w with maps := w.maps ++ [[]] } l.entry.Data = l.fields w := by
    simp only [readFields, logrusLogger.fields]
    exact getD_append_of_lt _ _ _ _ hl
  refine ⟨?_, rfl, rfl⟩
  simp only [logrusLogger.WithFields, Entry.WithFields, makeFields, hr]
  rw [foldl_mapAssign _ _ _ h0]
  rw [foldl_withFieldsStep _ _ _ _ _ (by simp)]
  simp only [getD_append_length, set_append_length, getD_set_self _ _ _ _ h0, set_set_self]

end logger

/-! ## `strconv`: decimal text reads back as the integer it prints -/

namespace strconv

theorem decimalValue_ge (cs : List Char) (acc : Nat) : acc ≤ decimalValue acc cs := by
  induction cs generalizing acc with
  | nil => exact Nat.le_refl _
  | cons c cs ih =>
    have h := ih (acc * 10 + digitOf c)
    exact Nat.le_trans
      (Nat.le_trans (Nat.le_mul_of_pos_right acc (by decide)) (Nat.le_add_right _ _)) h

theorem decimalValue_append (xs ys : List Char) (acc : Nat) :
    decimalValue acc (xs ++ ys) = decimalValue (decimalValue acc xs) ys := by
  induction xs generalizing acc with
  | nil => rfl
  | cons c cs ih =>
    show decimalValue _ (cs ++ ys) = _
    rw [ih]
    rfl

theorem digitVal_of_isDecimal (c : Char) (h : isDecimal c = true) :
    digitVal c = some (digitOf c) ∧ digitOf c < 10 ∧ c ≠ '_' ∧ c ≠ '+' ∧ c ≠ '-' := by
  simp only [isDecimal, decide_eq_true_eq] at h
  refine ⟨by simp [digitVal, h]; rfl, ?_, ?_, ?_, ?_⟩
  · have h2 : c.toNat ≤ 57 := h.2
    simp only [digitOf]
    omega
  · intro e
    subst e
    exact absurd h.2 (by decide)
  · intro e
    subst e
    exact absurd h.1 (by decide)
  · intro e
    subst e
    exact absurd h.1 (by decide)

theorem parseDigits_step (c : Char) (cs : List Char) (acc d K M : Nat) (u : Bool)
    (h1 : digitVal c = some d) (h2 : d < 10) (h3 : c ≠ '_')
    (hK : K = 1844674407370955162) (hM : M = 18446744073709551615)
    (hacc : acc * 10 + d ≤ M) :
    parseDigits 10 true K M (c :: cs) acc u = parseDigits 10 true K M cs (acc * 10 + d) u := by
  have hcut : ¬ acc ≥ K := by omega
  have hmod : (acc * 10 + d) % 2 ^ 64 = acc * 10 + d :=
    Nat.mod_eq_of_lt (by norm_num; omega)
  have hnot : ¬ (acc * 10 + d < acc * 10 ∨ acc * 10 + d > M) := by omega
  have hb : ¬ (d ≥ 10) := by omega
  rw [parseDigits]
  simp only [h3, false_and, if_false, h1, hb, hcut, hmod, hnot]

theorem parseDigits_decimal (cs : List Char) (acc K M : Nat) (u : Bool)
    (hK : K = 1844674407370955162) (hM : M = 18446744073709551615)
    (hd : ∀ c ∈ cs, isDecimal c = true) (hv : decimalValue acc cs ≤ M) :
    parseDigits 10 true K M cs acc u = .ok (decimalValue acc cs, u) := by
  induction cs generalizing acc with
  | nil => rfl
  | cons c cs ih =>
    obtain ⟨h1, h2, h3, _, _⟩ := digitVal_of_isDecimal c (hd c (List.mem_cons_self _ _))
    have hge := decimalValue_ge cs (acc * 10 + digitOf c)
    have hv' : decimalValue (acc * 10 + digitOf c) cs ≤ M := hv
    rw [parseDigits_step c cs acc (digitOf c) K M u h1 h2 h3 hK hM (Nat.le_trans hge hv')]
    exact ih _ (fun c' hc' => hd c' (List.mem_cons_of_mem _ hc')) hv'

theorem digitChar_decimal (k : Nat) (h : k < 10) :
    isDecimal (Nat.digitChar k) = true ∧ digitOf (Nat.digitChar k) = k ∧
      (0 < k → Nat.digitChar k ≠ '0') := by
  interval_cases k <;> decide

/-- What `Nat.toDigitsCore 10` puts in front of its accumulator: decimal digits, at least
one, whose value is the number, with no leading zero unless the number is 0. -/
theorem toDigitsCore_decimal (fuel n : Nat) (ds : List Char) (h : n < fuel) :
    ∃ pre, Nat.toDigitsCore 10 fuel n ds = pre ++ ds ∧ (∀ c ∈ pre, isDecimal c = true) ∧
      (∀ acc, decimalValue acc pre = acc * 10 ^ pre.length + n) ∧
      (∃ c t, pre = c :: t ∧ (0 < n → c ≠ '0')) := by
  induction fuel generalizing n ds with
  | zero => omega
  | succ fuel ih =>
    obtain ⟨hd1, hd2, hd3⟩ := digitChar_decimal (n % 10) (Nat.mod_lt _ (by decide))
    by_cases hq : n / 10 = 0
    · have hn : n < 10 := by omega
      have hmod : n % 10 = n := Nat.mod_eq_of_lt hn
      rw [hmod] at hd1 hd2 hd3
      refine ⟨[Nat.digitChar n], ?_, ?_, ?_, ?_⟩
      · simp [Nat.toDigitsCore, hq, hmod]
      · intro c hc
        simp only [List.mem_singleton] at hc
        rw [hc]; exact hd1
      · intro acc
        show acc * 10 + digitOf (Nat.digitChar n) = _
        rw [hd2]
        simp
      · exact ⟨_, _, rfl, fun hpos => hd3 hpos⟩
    · obtain ⟨pre, hp1, hp2, hp3, c, t, hp4, hp5⟩ :=
        ih (n / 10) (Nat.digitChar (n % 10) :: ds) (by omega)
      refine ⟨pre ++ [Nat.digitChar (n % 10)], ?_, ?_, ?_, ?_⟩
      · simp [Nat.toDigitsCore, hq, hp1]
      · intro c' hc'
        rcases List.mem_append.mp hc' with hc' | hc'
        · exact hp2 c' hc'
        · simp only [List.mem_singleton] at hc'
          rw [hc']; exact hd1
      · intro acc
        rw [decimalValue_append, hp3]
        show (acc * 10 ^ pre.length + n / 10) * 10 + digitOf (Nat.digitChar (n % 10)) = _
        rw [hd2, List.length_append, List.length_singleton, pow_succ]
        have h10 := Nat.div_add_mod n 10
        generalize n / 10 = q at h10 ⊢
        generalize n % 10 = r at h10 ⊢
        generalize 10 ^ pre.length = P
        subst h10
        ring
      · refine ⟨c, t ++ [Nat.digitChar (n % 10)], by simp [hp4], fun _ => hp5 (by omega)⟩

theorem detectBase_decimal (c : Char) (t : List Char) (h : c ≠ '0') :
    detectBase (c :: t) = (10, c :: t) := by
  unfold detectBase
  split
  · rename_i heq
    injection heq with h1 _
    exact absurd h1 h
  · rename_i heq
    injection heq with h1 _
    exact absurd h1 h
  · rfl

theorem ParseUint_toDigits (n : Nat) (h : n < 2 ^ 64) :
    ParseUint (Nat.toDigits 10 n) 0 64 = .ok n ∧
      ∃ c t, Nat.toDigits 10 n = c :: t ∧ c ≠ '+' ∧ c ≠ '-' := by
  obtain ⟨pre, hp1, hp2, hp3, c, t, hp4, hp5⟩ := toDigitsCore_decimal (n + 1) n [] (by omega)
  have hs : Nat.toDigits 10 n = c :: t := by
    rw [← hp4, Nat.toDigits, hp1, List.append_nil]
  have hc := digitVal_of_isDecimal c (hp2 c (by rw [hp4]; exact List.mem_cons_self _ _))
  refine ⟨?_, c, t, hs, hc.2.2.2.1, hc.2.2.2.2⟩
  by_cases hn : n = 0
  · subst hn
    decide
  · have hne : c ≠ '0' := hp5 (by omega)
    have hv : decimalValue 0 (c :: t) = n := by
      rw [← hp4, hp3]; simp
    have hpd := parseDigits_decimal (c :: t) 0 ((2 ^ 64 - 1) / 10 + 1) (2 ^ 64 - 1) false
      (by norm_num) (by norm_num) (by rw [← hp4]; exact hp2) (by rw [hv]; omega)
    rw [hs]
    simp only [ParseUint, detectBase_decimal c t hne, if_true, decide_True, hpd, hv]
    simp

theorem FormatInt_data (p : Int) :
    (FormatInt p).data =
      match p with
      | .ofNat m => Nat.toDigits 10 m
      | .negSucc m => '-' :: Nat.toDigits 10 (m + 1) := by
  cases p <;> rfl

/-- The decimal text of a 64-bit integer reads back as that integer. -/
theorem ParseInt_FormatInt (p : Int) (h1 : -2 ^ 63 ≤ p) (h2 : p < 2 ^ 63) :
    ParseInt (FormatInt p) 0 64 = .ok p := by
  unfold ParseInt
  rw [FormatInt_data]
  cases p with
  | ofNat m =>
    have hm : m < 2 ^ 63 := by
      have : (m : Int) < 2 ^ 63 := h2
      exact_mod_cast this
    obtain ⟨hu, c, t, hs, hc1, hc2⟩ := ParseUint_toDigits m (by omega)
    simp only [hs]
    rw [hs] at hu
    simp only [hc1, hc2, or_self, if_false, decide_False, hu]
    norm_num at hm
    have hlt : ¬ m ≥ 9223372036854775808 := by omega
    simp [hlt]
  | negSucc m =>
    have hm : m + 1 ≤ 2 ^ 63 := by
      have h3 : -2 ^ 63 ≤ Int.negSucc m := h1
      have h4 : Int.negSucc m = -((m : Int) + 1) := rfl
      rw [h4] at h3
      have : ((m : Int) + 1) ≤ 2 ^ 63 := by omega
      exact_mod_cast this
    obtain ⟨hu, c, t, hs, hc1, hc2⟩ := ParseUint_toDigits (m + 1) (by omega)
    simp only [decide_True, or_true, if_true, hu]
    norm_num at hm
    have hlt : ¬ 9223372036854775808 < m + 1 := by omega
    simp [hlt]
    rw [Int.negSucc_eq]
    omega

end strconv

/-! ## Claims about `pkg/config` -/

namespace config

open viper mapstructure

/-- C1. For every `Config`, `IsDevelopment` is true exactly when `App.Env` is the literal
`development`, `IsProduction` exactly when it is `production`, and for any other value of
`App.Env` both are false. -/
theorem C1_env_predicates (c : Config) :
    (c.IsDevelopment = true ↔ c.App.Env = "development") ∧
    (c.IsProduction = true ↔ c.App.Env = "production") ∧
    (c.App.Env ≠ "development" → c.App.Env ≠ "production" →
      c.IsDevelopment = false ∧ c.IsProduction = false) := by
  simp [Config.IsDevelopment, Config.IsProduction]
  intro h1 h2
  exact ⟨h1, h2⟩

/-- C1 at the values `staging`, the empty string and `Production`: both predicates are
false. -/
theorem C1_env_predicates_witness :
    (({ App := { Env := "staging" } } : Config).IsDevelopment = false ∧
      ({ App := { Env := "staging" } } : Config).IsProduction = false) ∧
    (({ App := { Env := "" } } : Config).IsDevelopment = false ∧
      ({ App := { Env := "" } } : Config).IsProduction = false) ∧
    (({ App := { Env := "Production" } } : Config).IsDevelopment = false ∧
      ({ App := { Env := "Production" } } : Config).IsProduction = false) :=
  ⟨(C1_env_predicates { App := { Env := "staging" } }).2.2 (by decide) (by decide),
   (C1_env_predicates { App := { Env := "" } }).2.2 (by decide) (by decide),
   (C1_env_predicates { App := { Env := "Production" } }).2.2 (by decide) (by decide)⟩

/-- C2. With no settings file and no variable whose name starts with `PM_` in the
environment, `Load` succeeds and returns the `Config` whose `App.Name` is
`product-master-system`, `App.Env` is `development`, `Server.HTTP.Host` is `127.0.0.1` and
`Server.HTTP.Port` is 8080 (every other field has its zero value). -/
theorem C2_load_defaults (env : Env)
    (h : ∀ name, strings.HasPrefix name "PM_" = true → env name = none) :
    Load .missing env =
      .ok { App := { Name := "product-master-system", Env := "development" }
            Server := { HTTP := { Host := "127.0.0.1", Port := 8080 } } } := by
  have hk : ∀ key, Env.get env (envVar key) = Env.get (fun _ => none) (envVar key) := by
    intro key
    simp [Env.get, h _ (envVar_hasPrefix key)]
  rw [Load_missing, finish_congr _ env (fun _ => none) hk]
  decide

/-- C2 at the empty environment. -/
theorem C2_load_defaults_witness :
    Load .missing (fun _ => none) =
      .ok { App := { Name := "product-master-system", Env := "development" }
            Server := { HTTP := { Host := "127.0.0.1", Port := 8080 } } } :=
  C2_load_defaults (fun _ => none) (fun _ _ => rfl)

/-- C3. For every integer `p` of Go's 64-bit `int`, written in decimal in the variable
`PM_SERVER_HTTP_PORT`: `Load` returns a `Config` with `Server.HTTP.Port = p` when there is
no settings file (the default 8080 is overridden) and when the settings file sets
`server.http.port`, to any value (the file is overridden); and whatever else a settings file
holds, a `Load` that succeeds has `Server.HTTP.Port = p`. -/
theorem C3_env_port_overrides (env : Env) (p : Int) (hlo : -2 ^ 63 ≤ p) (hhi : p < 2 ^ 63)
    (henv : env "PM_SERVER_HTTP_PORT" = some (strconv.FormatInt p)) :
    (∃ cfg, Load .missing env = .ok cfg ∧ cfg.Server.HTTP.Port = p) ∧
    (∀ q : Value, ∃ cfg,
      Load (.parsed fun k => if k = .server_http_port then some q else none) env = .ok cfg ∧
      cfg.Server.HTTP.Port = p) ∧
    (∀ s cfg, Load (.parsed s) env = .ok cfg → cfg.Server.HTTP.Port = p) := by
  have hp := strconv.ParseInt_FormatInt p hlo hhi
  refine ⟨?_, ?_, ?_⟩
  · obtain ⟨cfg, hc⟩ := finish_port_only none env _ p henv hp
    have hs : (fun k : Key => if k = .server_http_port then (none : Option Value) else none) =
        fun _ => none := by
      funext k; split <;> rfl
    rw [hs] at hc
    exact ⟨cfg, hc, port_from_env_any _ env _ p cfg henv hp hc⟩
  · intro q
    obtain ⟨cfg, hc⟩ := finish_port_only (some q) env _ p henv hp
    exact ⟨cfg, hc, port_from_env_any _ env _ p cfg henv hp hc⟩
  · intro s cfg hc
    exact port_from_env_any s env _ p cfg henv hp hc

/-- C3 at the file value 7000 and `PM_SERVER_HTTP_PORT=9090`: the port is 9090, with and
without the file. -/
theorem C3_env_port_overrides_witness :
    (∃ cfg, Load .missing (fun name => if name = "PM_SERVER_HTTP_PORT" then some "9090" else none)
        = .ok cfg ∧ cfg.Server.HTTP.Port = 9090) ∧
    (∃ cfg, Load (.parsed fun k =>
          if k = .server_http_port then some (.scalar (.int 7000)) else none)
        (fun name => if name = "PM_SERVER_HTTP_PORT" then some "9090" else none) = .ok cfg ∧
      cfg.Server.HTTP.Port = 9090) :=
  have h := C3_env_port_overrides
    (fun name => if name = "PM_SERVER_HTTP_PORT" then some "9090" else none) 9090
    (by decide) (by decide) (by decide)
  ⟨h.1, h.2.1 (.scalar (.int 7000))⟩

/-- C4. At the file-reading step `Load` fails exactly when `ReadInConfig` returns an error
that is not a `ConfigFileNotFoundError`: it then returns the error that wraps this cause
(and no `Config`), and `Load` returns such a read error in no other case.  A missing
settings file is not an error: `Load` goes on as with a file that sets nothing, and with an
environment that sets nothing it succeeds. -/
theorem C4_read_error_iff (file : ConfigFile) (env : Env) :
    (∀ e, (configured.ReadInConfig file).1 = some e → e.isConfigFileNotFoundError = false →
      Load file env = .error (.Errorf "failed to read config file: %w" e) ∧
      (Error.Errorf "failed to read config file: %w" e).Unwrap = some e) ∧
    (∀ e, Load file env = .error (.Errorf "failed to read config file: %w" e) →
      (configured.ReadInConfig file).1 = some e ∧ e.isConfigFileNotFoundError = false) ∧
    ((configured.ReadInConfig .missing).1.any Error.isConfigFileNotFoundError = true ∧
      Load .missing env = Load (.parsed fun _ => none) env ∧
      (Load .missing fun _ => none).isOk = true) := by
  refine ⟨?_, ?_, ?_, rfl, ?_⟩
  · intro e he hnf
    cases file with
    | missing => cases he; cases hnf
    | parsed s => cases he
    | unreadable c => cases he; exact ⟨rfl, rfl⟩
    | malformed c => cases he; exact ⟨rfl, rfl⟩
  · intro e he
    cases file with
    | missing =>
      rw [Load_missing] at he
      unfold finish at he
      split at he <;> simp at he
    | parsed s =>
      rw [Load_parsed] at he
      unfold finish at he
      split at he <;> simp at he
    | unreadable c => cases he; exact ⟨rfl, rfl⟩
    | malformed c => cases he; exact ⟨rfl, rfl⟩
  · decide
  · decide

/-- C4 at a settings file that is not well-formed YAML: `Load` returns the error that wraps
the parse error. -/
theorem C4_read_error_iff_witness :
    Load (.malformed "yaml: line 3: mapping values are not allowed in this context")
        (fun _ => none) =
      .error (.Errorf "failed to read config file: %w"
        (.ConfigParseError "yaml: line 3: mapping values are not allowed in this context")) :=
  ((C4_read_error_iff (.malformed "yaml: line 3: mapping values are not allowed in this context")
    (fun _ => none)).1 _ rfl rfl).1

end config

/-! ## Claims about `pkg/logger` -/

namespace logger

open logrus

/-- C5. For every level string that `logrus.ParseLevel` does not recognise, whatever the
format and with output `stdout` or empty, `NewLogger` returns a handle and no error, and the
logger behind the handle is set to exactly `InfoLevel`. -/
theorem C5_unknown_level_is_info (w : World) (level format output : String)
    (e : InvalidLevel) (hl : ParseLevel level = .error e)
    (ho : output = "stdout" ∨ output = "") :
    ∃ l, (NewLogger w level format output).1 = .ok l ∧
      (l.logger (NewLogger w level format output).2).map (fun x => x.Level) =
        some .InfoLevel := by
  rw [NewLogger_stdout w level format output ho]
  refine ⟨_, rfl, ?_⟩
  simp [logrusLogger.logger, get?_append_length, levelFor, hl]

/-- C5 at the level strings `verbose` and the empty string. -/
theorem C5_unknown_level_is_info_witness :
    (∃ l, (NewLogger (World.init noFiles) "verbose" "json" "stdout").1 = .ok l ∧
      (l.logger (NewLogger (World.init noFiles) "verbose" "json" "stdout").2).map
        (fun x => x.Level) = some .InfoLevel) ∧
    (∃ l, (NewLogger (World.init noFiles) "" "" "").1 = .ok l ∧
      (l.logger (NewLogger (World.init noFiles) "" "" "").2).map
        (fun x => x.Level) = some .InfoLevel) :=
  ⟨C5_unknown_level_is_info (World.init noFiles) "verbose" "json" "stdout" ⟨"verbose"⟩
      (by decide) (Or.inl rfl),
   C5_unknown_level_is_info (World.init noFiles) "" "" "" ⟨""⟩ (by decide) (Or.inr rfl)⟩

/-- C6, as stated, fails: for the level strings `DEBUG` and `Error`, which differ from a
severity name only in letter case, the handle is set to `DebugLevel` and to `ErrorLevel`,
not to the info fallback. -/
theorem C6_counterexample :
    ((NewLogger (World.init noFiles) "DEBUG" "" "stdout").1 = .ok ⟨⟨0, 0, .empty⟩⟩ ∧
      ((NewLogger (World.init noFiles) "DEBUG" "" "stdout").2.loggers.get? 0).map
        (fun x => x.Level) = some .DebugLevel) ∧
    ((NewLogger (World.init noFiles) "Error" "" "stdout").1 = .ok ⟨⟨0, 0, .empty⟩⟩ ∧
      ((NewLogger (World.init noFiles) "Error" "" "stdout").2.loggers.get? 0).map
        (fun x => x.Level) = some .ErrorLevel) := by
  decide

/-- C6, amended. `NewLogger` reads its level argument without regard to letter case: the
logger behind a returned handle is set to the severity whose name equals the lower-cased
argument (`panic`, `fatal`, `error`, `warn` or `warning`, `info`, `debug`, `trace`), and to
the info fallback when the lower-cased argument is none of these names. -/
theorem C6_level_ignores_case (w : World) (level format output : String) (l : logrusLogger)
    (h : (NewLogger w level format output).1 = .ok l) :
    (strings.ToLower level = "panic" →
      (l.logger (NewLogger w level format output).2).map (fun x => x.Level)
        = some .PanicLevel) ∧
    (strings.ToLower level = "fatal" →
      (l.logger (NewLogger w level format output).2).map (fun x => x.Level)
        = some .FatalLevel) ∧
    (strings.ToLower level = "error" →
      (l.logger (NewLogger w level format output).2).map (fun x => x.Level)
        = some .ErrorLevel) ∧
    (strings.ToLower level = "warn" ∨ strings.ToLower level = "warning" →
      (l.logger (NewLogger w level format output).2).map (fun x => x.Level)
        = some .WarnLevel) ∧
    (strings.ToLower level = "info" →
      (l.logger (NewLogger w level format output).2).map (fun x => x.Level)
        = some .InfoLevel) ∧
    (strings.ToLower level = "debug" →
      (l.logger (NewLogger w level format output).2).map (fun x => x.Level)
        = some .DebugLevel) ∧
    (strings.ToLower level = "trace" →
      (l.logger (NewLogger w level format output).2).map (fun x => x.Level)
        = some .TraceLevel) ∧
    (strings.ToLower level ∉ ["panic", "fatal", "error", "warn", "warning", "info", "debug",
        "trace"] →
      (l.logger (NewLogger w level format output).2).map (fun x => x.Level)
        = some .InfoLevel) := by
  have hlv : (l.logger (NewLogger w level format output).2).map (fun x => x.Level) =
      some (levelFor level) := by
    by_cases ho : output = "stdout" ∨ output = ""
    · rw [NewLogger_stdout w level format output ho] at h ⊢
      cases h
      simp [logrusLogger.logger, get?_append_length]
    · rw [NewLogger_file w level format output ho] at h ⊢
      cases hfs : w.fs output openFlags 0o666 with
      | error err => simp only [hfs] at h; cases h
      | ok file =>
        simp only [hfs] at h ⊢
        cases h
        simp [logrusLogger.logger, get?_append_length]
  rw [hlv]
  simp only [levelFor, ParseLevel]
  refine ⟨?_, ?_, ?_, ?_, ?_, ?_, ?_, ?_⟩
  · intro e; simp [e]
  · intro e; simp [e]
  · intro e; simp [e]
  · intro e; rcases e with e | e <;> simp [e]
  · intro e; simp [e]
  · intro e; simp [e]
  · intro e; simp [e]
  · intro e
    simp only [List.mem_cons, List.mem_singleton, not_or, List.not_mem_nil, or_false] at e
    simp [e.1, e.2.1, e.2.2.1, e.2.2.2.1, e.2.2.2.2.1, e.2.2.2.2.2.1, e.2.2.2.2.2.2.1,
      e.2.2.2.2.2.2.2]

/-- C6, amended, at the level strings `DEBUG` and `Error`: the handle is set to
`DebugLevel` and to `ErrorLevel`. -/
theorem C6_level_ignores_case_witness :
    ((⟨⟨0, 0, .empty⟩⟩ : logrusLogger).logger
        (NewLogger (World.init noFiles) "DEBUG" "" "stdout").2).map (fun x => x.Level)
      = some .DebugLevel ∧
    ((⟨⟨0, 0, .empty⟩⟩ : logrusLogger).logger
        (NewLogger (World.init noFiles) "Error" "" "stdout").2).map (fun x => x.Level)
      = some .ErrorLevel :=
  ⟨(C6_level_ignores_case (World.init noFiles) "DEBUG" "" "stdout" ⟨⟨0, 0, .empty⟩⟩
      (by decide)).2.2.2.2.2.1 (by decide),
   (C6_level_ignores_case (World.init noFiles) "Error" "" "stdout" ⟨⟨0, 0, .empty⟩⟩
      (by decide)).2.2.1 (by decide)⟩

/-- C7. For every format string, the logger `NewLogger` creates gets the JSON formatter if
and only if the format is exactly `json`; for every other format (the empty string and
`JSON` included) it gets the text formatter with `FullTimestamp` on and the layout
`2006-01-02 15:04:05`.  The formatter is a function of the format alone: level and output
(and whether the call succeeds) do not matter, and the logger behind a returned handle is
that logger. -/
theorem C7_formatter_by_format (w : World) (level format output : String) :
    (∃ fmt, (created w (NewLogger w level format output).2).map (fun x => x.Formatter)
        = some fmt ∧
      (fmt = .JSONFormatter ↔ format = "json") ∧
      (format ≠ "json" → fmt = .TextFormatter true "2006-01-02 15:04:05")) ∧
    (∀ level' output',
      (created w (NewLogger w level' format output').2).map (fun x => x.Formatter) =
        (created w (NewLogger w level format output).2).map (fun x => x.Formatter)) ∧
    (∀ l, (NewLogger w level format output).1 = .ok l →
      l.logger (NewLogger w level format output).2 =
        created w (NewLogger w level format output).2) := by
  have key : ∀ level output,
      (created w (NewLogger w level format output).2).map (fun x => x.Formatter) =
        some (formatterFor format) ∧
      (∀ l, (NewLogger w level format output).1 = .ok l → l.entry.Logger = w.loggers.length) := by
    intro level output
    by_cases ho : output = "stdout" ∨ output = ""
    · rw [NewLogger_stdout w level format output ho]
      refine ⟨by simp [created, get?_append_length], ?_⟩
      intro l hl; cases hl; rfl
    · rw [NewLogger_file w level format output ho]
      cases hfs : w.fs output openFlags 0o666 with
      | error err =>
        refine ⟨by simp [created, get?_append_length], ?_⟩
        intro l hl; cases hl
      | ok file =>
        refine ⟨by simp [created, get?_append_length], ?_⟩
        intro l hl; cases hl; rfl
  refine ⟨⟨formatterFor format, (key level output).1, ?_, ?_⟩, ?_, ?_⟩
  · by_cases hf : format = "json" <;> simp [formatterFor, hf]
  · intro hf; simp [formatterFor, hf]
  · intro level' output'
    rw [(key level' output').1, (key level output).1]
  · intro l hl
    simp only [logrusLogger.logger, created, (key level output).2 l hl]

/-- C7 at the formats `json`, `JSON` and the empty string, on a log file that cannot be
opened: the logger created has the JSON formatter for `json` and the text formatter with
full timestamps for the other two. -/
theorem C7_formatter_by_format_witness :
    (created (World.init noFiles)
        (NewLogger (World.init noFiles) "info" "json" "/var/log/app.log").2).map
      (fun x => x.Formatter) = some .JSONFormatter ∧
    (created (World.init noFiles)
        (NewLogger (World.init noFiles) "info" "JSON" "/var/log/app.log").2).map
      (fun x => x.Formatter) = some (.TextFormatter true "2006-01-02 15:04:05") ∧
    (created (World.init noFiles)
        (NewLogger (World.init noFiles) "info" "" "/var/log/app.log").2).map
      (fun x => x.Formatter) = some (.TextFormatter true "2006-01-02 15:04:05") := by
  refine ⟨?_, ?_, ?_⟩
  · obtain ⟨fmt, h1, h2, _⟩ :=
      (C7_formatter_by_format (World.init noFiles) "info" "json" "/var/log/app.log").1
    rw [h1, h2.mpr rfl]
  · obtain ⟨fmt, h1, _, h3⟩ :=
      (C7_formatter_by_format (World.init noFiles) "info" "JSON" "/var/log/app.log").1
    rw [h1, h3 (by decide)]
  · obtain ⟨fmt, h1, _, h3⟩ :=
      (C7_formatter_by_format (World.init noFiles) "info" "" "/var/log/app.log").1
    rw [h1, h3 (by decide)]

/-- C8. For every level and format: with output `stdout` or empty, `NewLogger` opens no
file, returns a handle and no error, and the logger writes to standard output; with any
other output it opens that path, once, with the flags create, write-only and append and
mode 0666, returns an error exactly when the open fails, that error being the open error,
and otherwise returns a handle whose logger writes to the opened file. -/
theorem C8_output_selection (w : World) (level format output : String) :
    (output = "stdout" ∨ output = "" →
      (NewLogger w level format output).2.opened = w.opened ∧
      ∃ l, (NewLogger w level format output).1 = .ok l ∧
        (l.logger (NewLogger w level format output).2).map (fun x => x.Out) = some .Stdout) ∧
    (¬ (output = "stdout" ∨ output = "") →
      (NewLogger w level format output).2.opened =
        w.opened ++ [⟨output, os.O_CREATE ||| os.O_WRONLY ||| os.O_APPEND, 0o666⟩] ∧
      (∀ err, (NewLogger w level format output).1 = .error err ↔
        w.fs output (os.O_CREATE ||| os.O_WRONLY ||| os.O_APPEND) 0o666 = .error err) ∧
      (∀ file, w.fs output (os.O_CREATE ||| os.O_WRONLY ||| os.O_APPEND) 0o666 = .ok file →
        ∃ l, (NewLogger w level format output).1 = .ok l ∧
          (l.logger (NewLogger w level format output).2).map (fun x => x.Out) =
            some (.File file))) := by
  constructor
  · intro ho
    rw [NewLogger_stdout w level format output ho]
    exact ⟨rfl, _, rfl, by simp [logrusLogger.logger, get?_append_length]⟩
  · intro ho
    rw [NewLogger_file w level format output ho]
    show _ ∧ (∀ err, _ ↔ w.fs output openFlags 0o666 = .error err) ∧
      (∀ file, w.fs output openFlags 0o666 = .ok file → _)
    cases hfs : w.fs output openFlags 0o666 with
    | error err0 =>
      refine ⟨rfl, ?_, ?_⟩
      · intro err
        constructor
        · intro h; injection h with h; rw [h]
        · intro h; injection h with h; rw [h]
      · intro file h; cases h
    | ok file0 =>
      refine ⟨rfl, ?_, ?_⟩
      · intro err
        constructor
        · intro h; cases h
        · intro h; cases h
      · intro file h
        injection h with h
        subst h
        exact ⟨_, rfl, by simp [logrusLogger.logger, get?_append_length]⟩

/-- C8 at the output `/var/log/app.log`: on a file system that refuses the open,
`NewLogger` returns the open error, having opened that path with flags 0x441 and mode 0666;
on one that grants it, a handle on the opened file; and with output `stdout` nothing is
opened. -/
theorem C8_output_selection_witness :
    (NewLogger (World.init noFiles) "info" "json" "/var/log/app.log").1 =
      .error ⟨"open", "/var/log/app.log", "permission denied"⟩ ∧
    (NewLogger (World.init noFiles) "info" "json" "/var/log/app.log").2.opened =
      [⟨"/var/log/app.log", 0x441, 0o666⟩] ∧
    (∃ l, (NewLogger (World.init anyFile) "info" "json" "/var/log/app.log").1 = .ok l ∧
      (l.logger (NewLogger (World.init anyFile) "info" "json" "/var/log/app.log").2).map
        (fun x => x.Out) = some (.File ⟨3, "/var/log/app.log"⟩)) ∧
    (NewLogger (World.init noFiles) "info" "json" "stdout").2.opened = [] :=
  ⟨((C8_output_selection (World.init noFiles) "info" "json" "/var/log/app.log").2
      (by decide)).2.1 _ |>.mpr rfl,
   ((C8_output_selection (World.init noFiles) "info" "json" "/var/log/app.log").2
      (by decide)).1,
   ((C8_output_selection (World.init anyFile) "info" "json" "/var/log/app.log").2
      (by decide)).2.2 _ rfl,
   ((C8_output_selection (World.init noFiles) "info" "json" "stdout").1 (Or.inl rfl)).1⟩

/-- C9, as stated, fails: deriving a handle with the fields `request_id` (a string) and
`callback` (a function) gives a handle whose field context has `request_id` but no
`callback`, although `callback` is a pair of the field map. -/
theorem C9_counterexample :
    ("callback", FieldValue.func 1) ∈
      [("request_id", FieldValue.str "r-1"), ("callback", FieldValue.func 1)] ∧
    lookup (derived.1.fields derived.2) "request_id" = some (.str "r-1") ∧
    lookup (derived.1.fields derived.2) "callback" = none := by
  decide

/-- C9, amended. For a handle `l` of the world (its map allocated, with distinct keys) and
a field map `fs`, `WithFields` returns a new handle on the same logger whose field context
has every pair of `fs` whose value is not a function or a pointer to a function, and under
every other key (a key of `fs` with a function-typed value included) what `l` has there; no
logger changes, the field context of `l` is what it was, and a write through `l` after the
call emits exactly what it would have emitted before. -/
theorem C9_with_fields_frame (w : World) (l : logrusLogger) (fs : Fields)
    (hl : l.entry.Data < w.maps.length)
    (hm : ((l.fields w).map Prod.fst).Nodup)
    (hfs : (fs.map Prod.fst).Nodup) :
    (∀ k v, (k, v) ∈ fs → isErrField v = false →
      lookup ((l.WithFields w fs).1.fields (l.WithFields w fs).2) k = some v) ∧
    (∀ k, (∀ v, (k, v) ∈ fs → isErrField v = true) →
      lookup ((l.WithFields w fs).1.fields (l.WithFields w fs).2) k = lookup (l.fields w) k) ∧
    ((l.WithFields w fs).1.entry.Logger = l.entry.Logger ∧
      (l.WithFields w fs).2.loggers = w.loggers ∧
      (l.WithFields w fs).1.entry.Data ≠ l.entry.Data) ∧
    l.fields (l.WithFields w fs).2 = l.fields w ∧
    (∀ level msg, (l.entry.Log (l.WithFields w fs).2 level msg).written =
      (l.entry.Log w level msg).written) := by
  obtain ⟨hw, hlog, hdata⟩ := WithFields_world w l fs hl
  have hnew : (l.WithFields w fs).1.fields (l.WithFields w fs).2 =
      assignAll (assignAll [] (l.fields w)) (accepted fs) := by
    simp only [logrusLogger.fields, readFields, hdata, hw, getD_append_length]
  have hold : l.fields (l.WithFields w fs).2 = l.fields w := by
    simp only [logrusLogger.fields, readFields, hw]
    exact getD_append_of_lt _ _ _ _ hl
  have hacc : ((accepted fs).map Prod.fst).Nodup :=
    hfs.sublist ((List.filter_sublist _).map Prod.fst)
  refine ⟨?_, ?_, ⟨hlog, by rw [hw], ?_⟩, hold, ?_⟩
  · intro k v hkv hv
    rw [hnew]
    apply lookup_assignAll_of_mem _ _ _ _ hacc
    simp [accepted, hkv, hv]
  · intro k hk
    rw [hnew, lookup_assignAll_of_not_mem, lookup_copy _ _ hm]
    intro hmem
    obtain ⟨p, hp, e⟩ := List.mem_map.mp hmem
    obtain ⟨a, b⟩ := p
    simp only at e
    subst e
    simp only [accepted, List.mem_filter, Bool.not_eq_true', decide_eq_true_eq] at hp
    have := hk b hp.1
    rw [hp.2] at this
    cases this
  · rw [hdata]; omega
  · intro level msg
    have hr : readFields (l.WithFields w fs).2 l.entry.Data = readFields w l.entry.Data := hold
    simp only [Entry.Log, hr]
    rw [hw]
    cases w.loggers.get? l.entry.Logger with
    | none => rfl
    | some x => by_cases hE : IsLevelEnabled x level = true <;> simp [hE]

/-- C9, amended, at the handle `derived.1`, which carries `request_id = r-1`, and the field
map with `request_id = r-2`, `user = 7` and the function `callback`: the new handle has
`r-2` and 7, has nothing under `callback`, sits on the same logger, and the parent handle
still carries `request_id = r-1` alone. -/
theorem C9_with_fields_frame_witness :
    lookup ((derived.1.WithFields derived.2 manyFields).1.fields
      (derived.1.WithFields derived.2 manyFields).2) "request_id" = some (.str "r-2") ∧
    lookup ((derived.1.WithFields derived.2 manyFields).1.fields
      (derived.1.WithFields derived.2 manyFields).2) "user" = some (.int 7) ∧
    lookup ((derived.1.WithFields derived.2 manyFields).1.fields
      (derived.1.WithFields derived.2 manyFields).2) "callback" = none ∧
    (derived.1.WithFields derived.2 manyFields).1.entry.Logger = 0 ∧
    derived.1.fields (derived.1.WithFields derived.2 manyFields).2 =
      [("request_id", .str "r-1")] :=
  have h := C9_with_fields_frame derived.2 derived.1 manyFields
    (by decide) (by decide) (by decide)
  ⟨h.1 "request_id" (.str "r-2") (by decide) rfl,
   h.1 "user" (.int 7) (by decide) rfl,
   (h.2.1 "callback" (fun v hv => by
      have e : v = .func 1 := by simpa [manyFields] using hv
      rw [e]; rfl)).trans (by decide),
   h.2.2.1.1.trans (by decide),
   h.2.2.2.1.trans (by decide)⟩

end logger
